import Mathlib

/-!
# Shallow embedding of the CustomMemoryAllocator library

Embeds the three allocators (pool, stack, buddy) from
`src/src/{pool,stack,buddy}_allocator.cpp` and the shared helpers from
`src/include/allocator/*.hpp`.

Modelling conventions:
* `size_t` values are `Nat`; arithmetic that can wrap in C++ is taken
  modulo `W = 2 ^ 64` at the spots where the source can overflow.
* Raw pointers are `Nat` addresses; the null pointer is address `0`.
  Heap regions handed out by `operator new` are modelled by a fresh-region
  counter `supply`: the n-th acquired region starts at `(n + 1) * 2 ^ 32`,
  which is nonzero, 2^32-aligned, and disjoint from every other region
  (each region is at most 2^27 bytes).
* The intrusive free lists (a next pointer stored in the first bytes of a
  free block) are modelled by an explicit store `Mem : Nat → Option Nat`
  giving, for each block address, the pointer currently written there
  (`none` = null).  `std::make_unique<std::byte[]>` zero-initialises, so a
  fresh region reads as `none` everywhere; the initial store is
  `fun _ => none` and regions are never reused.
* The build modelled is the debug build (`ALLOCATOR_DEBUG = 1`), which is
  the configuration the repository's tests run: error paths throw, and the
  runtime flags `g_debug_checks` / `g_capacity_checks` (default `true`)
  are carried in each allocator state.
* C++ `throw` is `Except.error` with one error constructor per throw site.
  Loops that the C++ source runs without a bound (free-list scans, which
  can diverge on a corrupted cyclic list) take a fuel argument large
  enough for every list the allocator can build; exhaustion is reported
  as `.fuelExhausted`, a modelling artifact no theorem below relies on.
-/

namespace CMA

/-- 2^64, the size_t modulus. -/
def W : Nat := 18446744073709551616

/-- `AllocatorInterface::getAlignedSize`: `(size + alignment - 1) & ~(alignment - 1)`
in 64-bit arithmetic (`alignment - 1` wraps when `alignment = 0`). -/
def getAlignedSize (size a : Nat) : Nat :=
  ((size + a + (W - 1)) % W) &&& ((W - 1) ^^^ ((a + (W - 1)) % W))

/-- `AllocatorInterface::isAlignmentPowerOfTwo`. -/
def isAlignmentPowerOfTwo (a : Nat) : Bool :=
  a != 0 && (a &&& (a - 1)) == 0

/-- One error constructor per C++ throw site (plus `.fuelExhausted`, see header). -/
inductive Err where
  | invalidConstruction   -- constructor `std::invalid_argument`s
  | invalidAlignment      -- alignment not a power of two / out of range
  | sizeExceedsBlock      -- pool: "Requested size exceeds block size"
  | sizeExceedsBuffer     -- stack/buddy: "Requested size exceeds buffer size"
  | released              -- "Allocator has released its memory"
  | nullPointer           -- "Attempted to deallocate a null pointer"
  | foreignPointer        -- pointer not owned by this allocator
  | misalignedPointer     -- pool: not at a block boundary
  | doubleFree            -- pool debug walk: "Double free detected"
  | maxCapacity           -- "Exceeds maximum capacity(64 MB)"
  | maxPools              -- pool: "Exceeds maximum pool count"
  | nonResizable          -- stack: "Cannot allocate new buffer in non-resizable mode"
  | lifoViolation         -- stack debug: "Invalid LIFO deallocation order"
  | beyondTop             -- stack: "Pointer is beyond current top"
  | corruptSize           -- stack: "Calculated deallocation size exceeds current allocated offset"
  | invalidMarkNoBuffers  -- stack: "reset_to_mark() called on a non-memory owning allocator"
  | invalidMarkFewerBuffers -- stack: "invalid mark. Current buffer count ..."
  | invalidMarkAhead      -- stack: "invalid mark. Mark offset ... ahead of current buffer offset"
  | notInFreeList         -- buddy: "Attempted to remove a buddy not in free list"
  | noBlockAvailable      -- buddy: "No sufficient block available for allocation"
  | inconsistentState     -- buddy: "Inconsistent state: expected a free block"
  | undefinedBehavior     -- container access the C++ source performs without a guard
  | fuelExhausted         -- modelling artifact: bounded scan of an unbounded C++ loop
  deriving Repr, DecidableEq

/-- The spec's `CapacityExceeded` kind (§7) covers the capacity-cap throw sites. -/
def Err.isCapacityExceeded : Err → Bool
  | .maxCapacity => true
  | .maxPools => true
  | .nonResizable => true
  | _ => false

/-- The word stored in the first bytes of each block (the intrusive next
pointer); `none` is the null pointer.  Fresh memory is zeroed. -/
def Mem : Type := Nat → Option Nat

/-- Store a pointer value at an address. -/
def writePtr (m : Mem) (addr : Nat) (v : Option Nat) : Mem :=
  fun x => if x = addr then v else m x

/-- Base address of the n-th region acquired from the system,
`(supply + 1) * 2^32` — written as a structural recursion so that it
reduces cheaply during definitional-equality checks. -/
def regionBase : Nat → Nat
  | 0 => 4294967296
  | supply + 1 => regionBase supply + 4294967296

/-! ## Pool allocator (`src/src/pool_allocator.cpp`) -/

/-- `pool_allocator::pool`. -/
structure Pool where
  base : Nat
  size : Nat
  freeListHead : Option Nat
  allocatedCount : Nat
  freeCount : Nat

/-- `pool_allocator` member state, plus the global flags and the
fresh-region counter. -/
structure PoolSt where
  blockSize : Nat        -- m_blockSize (already aligned, ≥ 8)
  blockCount : Nat       -- m_blockCount
  alignment : Nat        -- m_alignment
  poolSize : Nat         -- m_poolSize
  maxPools : Nat         -- m_maxPools (0 = unlimited)
  pools : List Pool
  ownsMemory : Bool
  mem : Mem
  supply : Nat
  debugChecks : Bool     -- g_debug_checks
  capacityChecks : Bool  -- g_capacity_checks

/-- 64 MiB, the pool/stack `MAX_CAPACITY`. -/
def POOL_MAX_CAPACITY : Nat := 64 * 1024 * 1024

/-- The free-list threading loop shared by `allocate_new_pool` and
`pool_allocator::reset`: for `i = 0 .. n-1` write the current head into
block `base + i * bs`, make that block the head, and increment the free
count (the count is *not* zeroed first; both call sites pass the pool's
current head and count, exactly as the source reads them). -/
def threadLoop (mem : Mem) (head : Option Nat) (fc base bs : Nat) :
    Nat → Nat → Mem × Option Nat × Nat
  | _, 0 => (mem, head, fc)
  | i, n + 1 =>
      threadLoop (writePtr mem (base + i * bs) head) (some (base + i * bs))
        (fc + 1) base bs (i + 1) n

/-- `pool_allocator::allocate_new_pool`. -/
def allocateNewPool (st : PoolSt) : Except Err PoolSt :=
  if st.ownsMemory && st.capacityChecks then
    if st.poolSize * (st.pools.length + 1) > POOL_MAX_CAPACITY then
      .error .maxCapacity
    else if st.maxPools != 0 && st.pools.length + 1 > st.maxPools then
      .error .maxPools
    else .ok (allocateNewPoolCore st)
  else .ok (allocateNewPoolCore st)
where
  allocateNewPoolCore (st : PoolSt) : PoolSt :=
    let base := regionBase st.supply
    let t := threadLoop st.mem none 0 base st.blockSize 0 st.blockCount
    { st with
      pools := st.pools ++
        [{ base := base, size := st.poolSize, freeListHead := t.2.1,
           allocatedCount := 0, freeCount := t.2.2 }]
      ownsMemory := true
      mem := t.1
      supply := st.supply + 1 }

/-- `pool_allocator::pool_allocator(blockSize, initial_capacity, alignment, maxPools)`.
`alignof(int) = 4` and `alignof(max_align_t) = 16` on the x86-64 target. -/
def poolCtor (blockSize initialCapacity alignment maxPools : Nat) :
    Except Err PoolSt :=
  if blockSize = 0 || initialCapacity = 0 then .error .invalidConstruction
  else
    match (if alignment = 0 then some 8
           else if !(isAlignmentPowerOfTwo alignment) then none
           else if alignment < 4 || alignment > 16 then none
           else some alignment) with
    | none => .error .invalidAlignment
    | some a =>
      let alignBlock := getAlignedSize blockSize a
      let bs := if alignBlock ≥ 8 then alignBlock else 8
      let ps := bs * initialCapacity
      if ps > POOL_MAX_CAPACITY then .error .invalidConstruction
      else
        allocateNewPool
          { blockSize := bs, blockCount := initialCapacity, alignment := a,
            poolSize := ps, maxPools := maxPools, pools := [],
            ownsMemory := false, mem := fun _ => none, supply := 0,
            debugChecks := true, capacityChecks := true }

/-- The scan in `pool_allocator::allocate`: pop the head of the first pool
whose free list is non-empty (the popped block's stored word becomes the
new head). -/
def popFirstFree (mem : Mem) : List Pool → Option (Nat × List Pool)
  | [] => none
  | p :: ps =>
      match p.freeListHead with
      | some b =>
          some (b, { p with freeListHead := mem b,
                            allocatedCount := p.allocatedCount + 1,
                            freeCount := p.freeCount - 1 } :: ps)
      | none =>
          match popFirstFree mem ps with
          | some (b, ps') => some (b, p :: ps')
          | none => none

/-- `pool_allocator::allocate`.  The source retries itself after a
successful `allocate_new_pool`; that retry always pops from the freshly
appended pool, so it is unrolled once here (the `.fuelExhausted` fallback
is unreachable for `blockCount ≥ 1`). -/
def poolAllocate (st : PoolSt) (size _alignment : Nat) :
    Except Err (Nat × PoolSt) :=
  if size > st.blockSize then .error .sizeExceedsBlock
  else if !st.ownsMemory then .error .released
  else
    match popFirstFree st.mem st.pools with
    | some (b, ps) => .ok (b, { st with pools := ps })
    | none => do
        let st' ← allocateNewPool st
        match popFirstFree st'.mem st'.pools with
        | some (b, ps) => .ok (b, { st' with pools := ps })
        | none => .error .fuelExhausted

/-- The debug double-free walk in `pool_allocator::deallocate`: follow the
chain from `head` looking for `ptr`.  Returns `true` if found, `false` if
the chain reaches null; `none` when the fuel runs out (the C++ loop would
not terminate on such a chain). -/
def walkFindsPtr (mem : Mem) (ptr : Nat) : Option Nat → Nat → Option Bool
  | none, _ => some false
  | some _, 0 => none
  | some w, fuel + 1 => if w = ptr then some true else walkFindsPtr mem ptr (mem w) fuel

/-- The per-pool body of `pool_allocator::deallocate`, scanning pools by
address range. -/
def poolDeallocLoop (st : PoolSt) (ptr : Nat) : List Pool → List Pool →
    Except Err PoolSt
  | _, [] => .error .foreignPointer
  | before, p :: ps =>
      if p.base ≤ ptr ∧ ptr < p.base + p.size then
        if (ptr - p.base) % st.blockSize ≠ 0 then .error .misalignedPointer
        else
          let checked : Except Err Unit :=
            if st.debugChecks then
              match walkFindsPtr st.mem ptr p.freeListHead (2 * st.blockCount + 2) with
              | some true => .error .doubleFree
              | some false => .ok ()
              | none => .error .fuelExhausted
            else .ok ()
          match checked with
          | .error e => .error e
          | .ok () =>
              .ok { st with
                mem := writePtr st.mem ptr p.freeListHead
                pools := before ++
                  ({ p with freeListHead := some ptr,
                            allocatedCount := p.allocatedCount - 1,
                            freeCount := p.freeCount + 1 } :: ps) }
      else poolDeallocLoop st ptr (before ++ [p]) ps

/-- `pool_allocator::deallocate`. -/
def poolDeallocate (st : PoolSt) (ptr : Nat) : Except Err PoolSt :=
  if ptr = 0 then .error .nullPointer
  else if !st.ownsMemory then .error .released
  else poolDeallocLoop st ptr [] st.pools

/-- `pool_allocator::getAllocatedSize`. -/
def poolAllocatedSize (st : PoolSt) : Nat :=
  (st.pools.map fun p => p.allocatedCount * st.blockSize).sum

/-- `pool_allocator::reset`.  When memory is owned: drop all pools but the
first, then run the threading loop over that pool *starting from its
current head and free count* (the source neither nulls `free_list_head`
nor zeroes `free_count` before the loop), and zero `allocated_count`.
`pools.front()` on an empty vector is UB in C++; that corner is
unreachable (`ownsMemory` implies a pool exists). -/
def poolReset (st : PoolSt) : Except Err PoolSt :=
  if st.ownsMemory then
    match st.pools with
    | [] => .error .undefinedBehavior
    | p :: _ =>
        let t := threadLoop st.mem p.freeListHead p.freeCount p.base st.blockSize 0 st.blockCount
        .ok { st with
          mem := t.1
          pools := [{ p with freeListHead := t.2.1, freeCount := t.2.2,
                             allocatedCount := 0 }] }
  else allocateNewPool st

/-- `pool_allocator::releaseMemory`. -/
def poolRelease (st : PoolSt) : PoolSt :=
  { st with pools := [], ownsMemory := false }

/-! ## Stack allocator (`src/src/stack_allocator.cpp`) -/

/-- `stack_allocator::buffer`. -/
structure SBuffer where
  base : Nat
  size : Nat
  offset : Nat

/-- `stack_allocator` member state (the last list element is the active
buffer, matching `buffers.back()`).  `history` is the debug-build
`allocation_history` of `(pointer, aligned size)` records. -/
structure StackSt where
  alignment : Nat        -- m_alignment
  bufferSize : Nat       -- m_bufferSize
  resizable : Bool       -- m_resizable
  buffers : List SBuffer
  history : List (Nat × Nat)
  ownsMemory : Bool
  supply : Nat
  debugChecks : Bool
  capacityChecks : Bool

/-- Apply `f` to the last buffer (`buffers.back()`). -/
def updateLast (f : SBuffer → SBuffer) : List SBuffer → List SBuffer
  | [] => []
  | [b] => [f b]
  | b :: bs => b :: updateLast f bs

/-- 64-bit wrapping subtraction, for the `offset -=` updates. -/
def sub64 (a b : Nat) : Nat := (a % W + (W - b % W)) % W

/-- `stack_allocator::allocate_new_buffer`. -/
def allocateNewBuffer (st : StackSt) : Except Err StackSt :=
  if st.ownsMemory && st.capacityChecks then
    if !st.resizable then .error .nonResizable
    else if st.bufferSize * (st.buffers.length + 1) > POOL_MAX_CAPACITY then
      .error .maxCapacity
    else .ok (allocateNewBufferCore st)
  else .ok (allocateNewBufferCore st)
where
  allocateNewBufferCore (st : StackSt) : StackSt :=
    { st with
      buffers := st.buffers ++
        [{ base := regionBase st.supply, size := st.bufferSize, offset := 0 }]
      ownsMemory := true
      supply := st.supply + 1 }

/-- `stack_allocator::stack_allocator(bufferSize, alignment, resizable)`. -/
def stackCtor (bufferSize alignment : Nat) (resizable : Bool) :
    Except Err StackSt :=
  if bufferSize > POOL_MAX_CAPACITY then .error .invalidConstruction
  else
    match (if alignment = 0 then some 8
           else if !(isAlignmentPowerOfTwo alignment) then none
           else if alignment < 4 || alignment > 16 then none
           else some alignment) with
    | none => .error .invalidAlignment
    | some a =>
        allocateNewBuffer
          { alignment := a, bufferSize := bufferSize, resizable := resizable,
            buffers := [], history := [], ownsMemory := false, supply := 0,
            debugChecks := true, capacityChecks := true }

/-- The fast path of `stack_allocator::allocate`: bump the cursor of the
last buffer when the request fits, recording the allocation in the debug
history.  `none` when the last buffer is full. -/
def stackTryFit (st : StackSt) (alignSize : Nat) : Option (Nat × StackSt) :=
  match st.buffers.getLast? with
  | none => none
  | some b =>
      if b.offset + alignSize ≤ b.size then
        let ptr := b.base + b.offset
        some (ptr,
          { st with
            buffers := updateLast (fun lb => { lb with offset := lb.offset + alignSize }) st.buffers
            history := if st.debugChecks then st.history ++ [(ptr, alignSize)] else st.history })
      else none

/-- `stack_allocator::allocate`.  The per-call alignment, when nonzero,
must be a power of two at least `alignof(int) = 4` (no upper bound is
checked here, unlike the constructor).  As in the pool, the source's
self-retry after `allocate_new_buffer` is unrolled once; the new buffer
has offset 0 and size `m_bufferSize ≥ alignSize`, so the fallback error
is unreachable. -/
def stackAllocate (st : StackSt) (size alignment : Nat) :
    Except Err (Nat × StackSt) :=
  if !st.ownsMemory then .error .released
  else
    match (if alignment = 0 then some st.alignment
           else if !(isAlignmentPowerOfTwo alignment) then none
           else if alignment < 4 then none
           else some alignment) with
    | none => .error .invalidAlignment
    | some a =>
      let alignSize := getAlignedSize size a
      if alignSize > st.bufferSize then .error .sizeExceedsBuffer
      else
        match stackTryFit st alignSize with
        | some r => .ok r
        | none =>
            if st.buffers.isEmpty then .error .undefinedBehavior
            else do
              let st' ← allocateNewBuffer st
              match stackTryFit st' alignSize with
              | some r => .ok r
              | none => .error .fuelExhausted

/-- `stack_allocator::deallocate`.  With debug checks on, the top history
record must match; otherwise the size is inferred as the distance from
the pointer to the current top.  In both paths an emptied buffer is
popped unless it is the only one. -/
def stackDeallocate (st : StackSt) (ptr : Nat) : Except Err StackSt :=
  if ptr = 0 then .error .nullPointer
  else if !st.ownsMemory then .error .released
  else
    match st.buffers.getLast? with
    | none => .error .undefinedBehavior
    | some b =>
      let popped : Except Err StackSt :=
        if st.debugChecks then
          match st.history.getLast? with
          | none => .error .undefinedBehavior  -- `allocation_history.back()` on empty history
          | some (p, sz) =>
              if p ≠ ptr then .error .lifoViolation
              else
                .ok { st with
                  buffers := updateLast (fun lb => { lb with offset := sub64 lb.offset sz }) st.buffers
                  history := st.history.dropLast }
        else
          if ptr ≥ b.base + b.offset then .error .beyondTop
          else
            let sz := b.base + b.offset - ptr
            if sz > b.offset then .error .corruptSize
            else
              .ok { st with
                buffers := updateLast (fun lb => { lb with offset := lb.offset - sz }) st.buffers }
      match popped with
      | .error e => .error e
      | .ok st' =>
          match st'.buffers.getLast? with
          | none => .error .undefinedBehavior
          | some b' =>
              if b'.offset = 0 ∧ st'.buffers.length > 1 then
                .ok { st' with buffers := st'.buffers.dropLast }
              else .ok st'

/-- `stack_allocator::getAllocatedSize`. -/
def stackAllocatedSize (st : StackSt) : Nat :=
  (st.buffers.map SBuffer.offset).sum

/-- `stack_allocator::reset`.  `while (buffers.size() != 1) pop_back()`
keeps the first buffer; with `ownsMemory` set and no buffers that loop
would not terminate, an unreachable corner reported as UB here. -/
def stackReset (st : StackSt) : Except Err StackSt :=
  if st.ownsMemory then
    match st.buffers with
    | [] => .error .undefinedBehavior
    | b :: _ => .ok { st with buffers := [{ b with offset := 0 }], history := [] }
  else allocateNewBuffer st

/-- `stack_allocator::releaseMemory`. -/
def stackRelease (st : StackSt) : StackSt :=
  { st with buffers := [], history := [], ownsMemory := false }

/-- `stack_allocator::mark` (`buffers.back()` on a released allocator is UB). -/
def stackMark (st : StackSt) : Except Err (Nat × Nat) :=
  match st.buffers.getLast? with
  | none => .error .undefinedBehavior
  | some b => .ok (st.buffers.length, b.offset)

/-- Truncation of a 64-bit unsigned value to a 32-bit signed `int`
(two's complement). -/
def toInt32 (n : Nat) : Int :=
  if n % 4294967296 < 2147483648 then (n % 4294967296 : Int)
  else (n % 4294967296 : Int) - 4294967296

/-- `stack_allocator::reset_to_mark`.  `int sizeDiff = bufferSize - markTimeSize`
subtracts the two `size_t` counts with 64-bit wraparound and narrows the
result to a 32-bit `int`; the mark components are `size_t` values.  The
pop loop `while (buffers.size() > markTimeSize) pop_back()` keeps the
first `markTimeSize` buffers, and `buffers.back()` after it is UB when
`markTimeSize = 0`. -/
def stackResetToMark (st : StackSt) (mark : Nat × Nat) : Except Err StackSt :=
  match st.buffers.getLast? with
  | none => .error .invalidMarkNoBuffers
  | some b =>
      let markTimeSize := mark.1 % W
      let offset := mark.2 % W
      let sizeDiff : Int :=
        toInt32 ((st.buffers.length % W + (W - markTimeSize)) % W)
      if sizeDiff < 0 then .error .invalidMarkFewerBuffers
      else if sizeDiff = 0 ∧ b.offset < offset then .error .invalidMarkAhead
      else
        let kept := st.buffers.take markTimeSize
        match kept.getLast? with
        | none => .error .undefinedBehavior  -- `markTimeSize = 0` pops every buffer, then `buffers.back()` is UB
        | some _ =>
            .ok { st with buffers := updateLast (fun lb => { lb with offset := offset }) kept }

/-! ## Buddy allocator (`src/src/buddy_allocator.cpp`) -/

/-- `buddy_allocator::MIN_CAPACITY` (1 KiB). -/
def BUDDY_MIN_CAPACITY : Nat := 1024

/-- `buddy_allocator::MAX_CAPACITY` (128 MiB). -/
def BUDDY_MAX_CAPACITY : Nat := 128 * 1024 * 1024

/-- The doubling loop of `get_power_of_two`: `while (power < size) power <<= 1`.
The source starts it at `power = 1` and sizes are `size_t` values, so 64
doublings always suffice; the fuel makes the recursion structural. -/
def powLoop (p s : Nat) : Nat → Nat
  | 0 => p
  | fuel + 1 => if p < s then powLoop (2 * p) s fuel else p

/-- `buddy_allocator::get_power_of_two`. -/
def getPowerOfTwo (size : Nat) : Nat :=
  if size ≤ BUDDY_MIN_CAPACITY then BUDDY_MIN_CAPACITY else powLoop 1 size 64

/-- Floor base-2 logarithm by repeated halving (structural on a fuel
that 64 always covers for `size_t` inputs). -/
def log2Go : Nat → Nat → Nat
  | _, 0 => 0
  | n, fuel + 1 => if 2 ≤ n then log2Go (n / 2) fuel + 1 else 0

/-- `buddy_allocator::get_level`: `log2(size / MIN_CAPACITY)`.  Every call
site passes a power of two ≥ 1 KiB, for which the C `double` `log2` is
exact, so the integer floor coincides with it. -/
def getLevel (size : Nat) : Nat := log2Go (size / BUDDY_MIN_CAPACITY) 64

/-- `buddy_allocator::get_level_size`: `MIN_CAPACITY << level`. -/
def getLevelSize (level : Nat) : Nat := BUDDY_MIN_CAPACITY * 2 ^ level

/-- `buddy_allocator` member state.  `heads level` is `freeLists[level]`
(only indices 0..17 are ever used); the intrusive `next_free` pointers
live in `mem`.  `allocated` is the `allocatedBuddies` map as an
association list. -/
structure BuddySt where
  buffersize : Nat       -- m_buffersize (a power of two)
  base : Nat             -- m_buffer.start_address
  size : Nat             -- m_buffer.size
  initialLevel : Nat     -- m_buffer.initial_level
  heads : Nat → Option Nat
  mem : Mem
  allocated : List (Nat × Nat)
  ownsMemory : Bool
  supply : Nat

/-- `allocatedBuddies.find` (first binding for the key). -/
def lookupA (l : List (Nat × Nat)) (k : Nat) : Option Nat :=
  match l.find? (fun kv => kv.1 == k) with
  | some kv => some kv.2
  | none => none

/-- `allocatedBuddies[k] = v` (`operator[]`: assign if present, insert otherwise). -/
def insertA (l : List (Nat × Nat)) (k v : Nat) : List (Nat × Nat) :=
  match l with
  | [] => [(k, v)]
  | kv :: rest => if kv.1 = k then (k, v) :: rest else kv :: insertA rest k v

/-- `allocatedBuddies.erase` of one key. -/
def eraseA (l : List (Nat × Nat)) (k : Nat) : List (Nat × Nat) :=
  match l with
  | [] => []
  | kv :: rest => if kv.1 = k then rest else kv :: eraseA rest k

/-- Point update of the free-list head array. -/
def setHead (hs : Nat → Option Nat) (level : Nat) (v : Option Nat) :
    Nat → Option Nat :=
  fun i => if i = level then v else hs i

/-- `buddy_allocator::add_to_free_list`: `buddy->next_free = freeLists[level];
freeLists[level] = buddy`. -/
def addToFreeList (st : BuddySt) (b level : Nat) : BuddySt :=
  { st with mem := writePtr st.mem b (st.heads level)
            heads := setHead st.heads level (some b) }

/-- The unlink scan of `remove_from_free_list`: walk from `current`
until the node whose `next_free` is `b`; unlink it there, or report the
source's throw when the chain ends at null.  Fuel bounds a loop the C++
runs unbounded (it cycles forever on a corrupted circular list). -/
def removeScan (mem : Mem) (b current : Nat) : Nat → Except Err Mem
  | 0 => .error .fuelExhausted
  | fuel + 1 =>
      match mem current with
      | none => .error .notInFreeList
      | some nxt => if nxt = b then .ok (writePtr mem current (mem b))
                    else removeScan mem b nxt fuel

/-- Fuel for `removeScan`: a healthy free list never exceeds the maximal
block count `2^17`. -/
def SCAN_FUEL : Nat := 2 ^ 17 + 2

/-- `buddy_allocator::remove_from_free_list`.  NOTE the first branch: an
empty list makes the removal a silent no-op, even when `b` is not free at
all — this is the hole `try_merge_buddies` falls through (see the C1/C2
theorems below). -/
def removeFromFreeList (st : BuddySt) (b level : Nat) : Except Err BuddySt :=
  match st.heads level with
  | none => .ok st
  | some h =>
      if h = b then .ok { st with heads := setHead st.heads level (st.mem b) }
      else
        match removeScan st.mem b h SCAN_FUEL with
        | .ok m => .ok { st with mem := m }
        | .error e => .error e

/-- `buddy_allocator::get_first_free_buddy`. -/
def getFirstFreeBuddy (st : BuddySt) (level : Nat) :
    Except Err (Option Nat × BuddySt) :=
  match st.heads level with
  | none => .ok (none, st)
  | some b => do
      let st' ← removeFromFreeList st b level
      .ok (some b, st')

/-- The scan of `find_non_empty_level`, counting the remaining levels
down so that the recursion is structural. -/
def findNonEmptyGo (hs : Nat → Option Nat) : Nat → Nat → Option Nat
  | _, 0 => none
  | i, remaining + 1 =>
      match hs i with
      | some _ => some i
      | none => findNonEmptyGo hs (i + 1) remaining

/-- `buddy_allocator::find_non_empty_level`: first level in
`[start, 18)` with a non-empty free list (`none` for the source's `-1`). -/
def findNonEmptyLevel (hs : Nat → Option Nat) (start : Nat) : Option Nat :=
  findNonEmptyGo hs start (18 - start)

/-- `buddy_allocator::split_buddy`: push the upper half on the free list
one level down, return the lower half. -/
def splitBuddy (st : BuddySt) (b level : Nat) : Nat × BuddySt :=
  let halfSize := getLevelSize level / 2
  (b, addToFreeList st (b + halfSize) (level - 1))

/-- The split loop of `buddy_allocator::allocate` (structural recursion
on the number `ne - level` of pending splits): starting from the block
popped at `ne`, split until the target level.  (After the first
iteration the working block is always non-null, so the source's
in-loop null check cannot fire past the initial pop.) -/
def splitDownGo (st : BuddySt) (b ne level : Nat) : Nat → Nat × BuddySt
  | 0 => (b, st)
  | fuel + 1 =>
      if level < ne then
        let s := splitBuddy st b ne
        splitDownGo s.2 s.1 (ne - 1) level fuel
      else (b, st)

/-- The split loop, entered with exactly the pending number of splits. -/
def splitDown (st : BuddySt) (b ne level : Nat) : Nat × BuddySt :=
  splitDownGo st b ne level (ne - level)

/-- `buddy_allocator::allocate` (the alignment argument is ignored). -/
def buddyAllocate (st : BuddySt) (size _alignment : Nat) :
    Except Err (Nat × BuddySt) :=
  if !st.ownsMemory then .error .released
  else if size > st.buffersize then .error .sizeExceedsBuffer
  else
    let actualSize := getPowerOfTwo size
    let level := getLevel actualSize
    do
      let (ob, st₁) ← getFirstFreeBuddy st level
      match ob with
      | some b => .ok (b, { st₁ with allocated := insertA st₁.allocated b level })
      | none =>
          match findNonEmptyLevel st₁.heads (level + 1) with
          | none => .error .noBlockAvailable
          | some ne => do
              let (ob₂, st₂) ← getFirstFreeBuddy st₁ ne
              match ob₂ with
              | none => .error .inconsistentState
              | some lb =>
                  let r := splitDown st₂ lb ne level
                  .ok (r.1, { r.2 with allocated := insertA r.2.allocated r.1 level })

/-- `buddy_allocator::find_buddy`: no buddy at the initial level;
otherwise the XOR rule on offsets, rejected when out of bounds. -/
def findBuddy (st : BuddySt) (b level : Nat) : Option Nat :=
  if level = st.initialLevel then none
  else
    let offset := b - st.base
    let buddyOffset := offset ^^^ getLevelSize level
    if buddyOffset ≥ st.buffersize then none
    else some (st.base + buddyOffset)

/-- `buddy_allocator::try_merge_buddies`.  Whenever the buddy *address*
is in bounds the source removes both blocks and pushes the merged block
one level up — it never checks that the buddy is actually free.  The
recursion climbs levels; 19 units of fuel cover every start level ≤ 17
(`find_buddy` returns null at or above the initial level). -/
def tryMergeBuddies (st : BuddySt) (b level : Nat) : Nat → Except Err BuddySt
  | 0 => .error .fuelExhausted
  | fuel + 1 =>
      match findBuddy st b level with
      | none => .ok st
      | some pair => do
          let st₁ ← removeFromFreeList st b level
          let st₂ ← removeFromFreeList st₁ pair level
          let merged := min b pair
          let st₃ := addToFreeList st₂ merged (level + 1)
          tryMergeBuddies st₃ merged (level + 1) fuel

/-- `buddy_allocator::deallocate`. -/
def buddyDeallocate (st : BuddySt) (ptr : Nat) : Except Err BuddySt :=
  if ptr = 0 then .error .nullPointer
  else if !st.ownsMemory then .error .released
  else
    match lookupA st.allocated ptr with
    | none => .error .foreignPointer
    | some level =>
        let st₁ := { st with allocated := eraseA st.allocated ptr }
        let st₂ := addToFreeList st₁ ptr level
        tryMergeBuddies st₂ ptr level 19

/-- `buddy_allocator::getAllocatedSize`. -/
def buddyAllocatedSize (st : BuddySt) : Nat :=
  (st.allocated.map fun kv => getLevelSize kv.2).sum

/-- `buddy_allocator::releaseMemory`.  Frees the buffer and clears all
bookkeeping (the debug memset acts on a null, zero-length buffer). -/
def buddyRelease (st : BuddySt) : BuddySt :=
  { st with size := 0, base := 0, ownsMemory := false,
            allocated := [], heads := fun _ => none }

/-- `buddy_allocator::allocate_new_buffer` (releases the old buffer
first when owned; the free-list array is not cleared here — it is
already clear on every path that reaches this point). -/
def buddyAllocateNewBuffer (st : BuddySt) : BuddySt :=
  let st₀ := if st.ownsMemory then buddyRelease st else st
  let level := getLevel st₀.buffersize
  let st₁ :=
    { st₀ with base := regionBase st₀.supply, size := st₀.buffersize,
               initialLevel := level, ownsMemory := true,
               supply := st₀.supply + 1 }
  addToFreeList st₁ st₁.base level

/-- `buddy_allocator::buddy_allocator(buffersize)`. -/
def buddyCtor (buffersize : Nat) : Except Err BuddySt :=
  if buffersize < BUDDY_MIN_CAPACITY ∨ buffersize > BUDDY_MAX_CAPACITY then
    .error .invalidConstruction
  else
    .ok (buddyAllocateNewBuffer
      { buffersize := getPowerOfTwo buffersize, base := 0, size := 0,
        initialLevel := 0, heads := fun _ => none, mem := fun _ => none,
        allocated := [], ownsMemory := false, supply := 0 })

/-- `buddy_allocator::reset`.  With memory owned: clear the map and the
free lists, zero the buffer (the debug memset, which nulls every stored
next pointer in the region), and push the whole buffer back; otherwise
reacquire a buffer. -/
def buddyReset (st : BuddySt) : BuddySt :=
  if st.ownsMemory then
    let st₁ :=
      { st with allocated := [], heads := fun _ => none,
                mem := fun a => if st.base ≤ a ∧ a < st.base + st.size then none else st.mem a }
    addToFreeList st₁ st.base (getLevel st.buffersize)
  else buddyAllocateNewBuffer st

/-! ## Concrete executions referenced by the theorems -/

/-- Follow a free-list chain for at most `fuel` nodes (diagnostic view of
the intrusive list; a healthy list of n blocks ends within n nodes). -/
def chainNodes (mem : Mem) : Option Nat → Nat → List Nat
  | none, _ => []
  | some _, 0 => []
  | some a, fuel + 1 => a :: chainNodes mem (mem a) fuel

/-- `pool(32, 2)` (defaults), then `reset()`, then three `allocate(16)`;
yields the three returned block addresses, none ever deallocated. -/
def c1PoolTrace : Except Err (Nat × Nat × Nat) := do
  let st0 ← poolCtor 32 2 0 0
  let st1 ← poolReset st0
  let (a1, st2) ← poolAllocate st1 16 0
  let (a2, st3) ← poolAllocate st2 16 0
  let (a3, _st4) ← poolAllocate st3 16 0
  .ok (a1, a2, a3)

/-- The state of `pool(32, 2)` (defaults) right after `reset()`. -/
def c3ResetState : Except Err PoolSt := do
  let st0 ← poolCtor 32 2 0 0
  poolReset st0

/-- `buddy(1 MiB)`, `p1 = allocate(2048)`, `p2 = allocate(2048)`,
`deallocate(p1)`; yields `p1`, `p2`, then from the post-deallocate state:
`free_lists[1]`'s head, `free_lists[10]`'s head, and the level `p2` is
still allocated at. -/
def c2BuddyTrace :
    Except Err (Nat × Nat × Option Nat × Option Nat × Option Nat) := do
  let st0 ← buddyCtor (1024 * 1024)
  let (p1, st1) ← buddyAllocate st0 2048 0
  let (p2, st2) ← buddyAllocate st1 2048 0
  let st3 ← buddyDeallocate st2 p1
  .ok (p1, p2, st3.heads 1, st3.heads 10, lookupA st3.allocated p2)

/-- Spec scenario 5: `buddy(1 MiB); p1 = alloc(2048); p2 = alloc(2048);
dealloc(p1); dealloc(p2); p3 = alloc(4096)`; yields `(p1, p2,
allocated_size after the deallocates, p3)`. -/
def c5BuddyTrace : Except Err (Nat × Nat × Nat × Nat) := do
  let st0 ← buddyCtor (1024 * 1024)
  let (p1, st1) ← buddyAllocate st0 2048 0
  let (p2, st2) ← buddyAllocate st1 2048 0
  let st3 ← buddyDeallocate st2 p1
  let st4 ← buddyDeallocate st3 p2
  let (p3, _st5) ← buddyAllocate st4 4096 0
  .ok (p1, p2, buddyAllocatedSize st4, p3)

/-- Spec scenario 2: `pool(32, 2, align = 16, max_pools = 2)` and four
`allocate(16)` calls; yields the four addresses and the error of the
fifth call. -/
def c6PoolTrace : Except Err ((Nat × Nat × Nat × Nat) × Err) := do
  let st0 ← poolCtor 32 2 16 2
  let (a, st1) ← poolAllocate st0 16 0
  let (b, st2) ← poolAllocate st1 16 0
  let (c, st3) ← poolAllocate st2 16 0
  let (d, st4) ← poolAllocate st3 16 0
  match poolAllocate st4 16 0 with
  | .error e => .ok ((a, b, c, d), e)
  | .ok _ => .error .fuelExhausted

/-- A stack allocator state as produced by `stack_allocator(64)`
(one fresh untouched buffer), used to instantiate the general theorems. -/
def sampleStack : StackSt :=
  { alignment := 8, bufferSize := 64, resizable := false,
    buffers := [{ base := 2 ^ 32, size := 64, offset := 0 }], history := [],
    ownsMemory := true, supply := 1, debugChecks := true, capacityChecks := true }

/-- `stack(256, align = 8); allocate(4, 4); allocate(16, 16)`: both calls
succeed; yields the two returned pointers. -/
def c4StackTrace : Except Err (Nat × Nat) := do
  let st0 ← stackCtor 256 8 false
  let (q1, st1) ← stackAllocate st0 4 4
  let (q2, _st2) ← stackAllocate st1 16 16
  .ok (q1, q2)

/-- `stack(64); allocate(16); reset_to_mark({2^32 + 1, 0})`: yields the
state right before the `reset_to_mark` call together with that call's
result. -/
def c7ForgedMarkTrace : Except Err (StackSt × Except Err StackSt) := do
  let st0 ← stackCtor 64 0 false
  let (_p1, st1) ← stackAllocate st0 16 0
  .ok (st1, stackResetToMark st1 (4294967297, 0))

/-- `b` is the start of one of the `block_count` blocks of pool `p`
(block size `bs`). -/
def GoodBlock (count bs : Nat) (p : Pool) (b : Nat) : Prop :=
  ∃ i, i < count ∧ b = p.base + i * bs

/-- The state facts the amended pointer-validity theorem needs of a pool
allocator: the size bookkeeping is coherent, bases are non-null, and
every non-null free-list head is a block of its own pool.  All reachable
states satisfy this (even the corrupted post-reset ones, whose free lists
merely repeat valid block addresses). -/
def PoolHeadsGood (st : PoolSt) : Prop :=
  0 < st.blockSize ∧ st.poolSize = st.blockSize * st.blockCount ∧
  ∀ p ∈ st.pools, 0 < p.base ∧ p.size = st.poolSize ∧
    (p.freeListHead = none ∨
     ∃ b, p.freeListHead = some b ∧ GoodBlock st.blockCount st.blockSize p b)

/-- A buddy allocator state as produced by `buddy_allocator(1 MiB)`
(the whole fresh buffer free at level 10), used to instantiate the
general theorems. -/
def sampleBuddy : BuddySt :=
  { buffersize := 1048576, base := 4294967296, size := 1048576,
    initialLevel := 10,
    heads := setHead (fun _ => none) 10 (some 4294967296),
    mem := writePtr (fun _ => none) 4294967296 none,
    allocated := [], ownsMemory := true, supply := 1 }

/-- A pool allocator state as produced by `pool_allocator(32, 2)`
(one fresh pool, both blocks free), used to instantiate the general
theorems. -/
def samplePool : PoolSt :=
  { blockSize := 32, blockCount := 2, alignment := 8, poolSize := 64,
    maxPools := 0,
    pools := [{ base := 4294967296, size := 64,
                freeListHead := some 4294967328, allocatedCount := 0,
                freeCount := 2 }],
    ownsMemory := true,
    mem := writePtr (fun _ => none) 4294967328 (some 4294967296),
    supply := 1, debugChecks := true, capacityChecks := true }

/-! # Theorems for the claims -/

/-! ## Arithmetic helpers for `getAlignedSize` -/

theorem W_eq : W = 2 ^ 64 := by norm_num [W]

theorem and_compl64 (x : Nat) (hx : x < W) : x &&& ((W - 1) ^^^ x) = 0 := by
  apply Nat.eq_of_testBit_eq
  intro i
  rw [Nat.zero_testBit, Nat.testBit_and, Nat.testBit_xor]
  show (x.testBit i && ((2 ^ 64 - 1).testBit i ^^ x.testBit i)) = false
  rcases lt_or_ge i 64 with h | h
  · rw [Nat.testBit_two_pow_sub_one]
    simp [h]
  · have hx64 : x < 2 ^ 64 := W_eq ▸ hx
    have : x.testBit i = false :=
      Nat.testBit_lt_two_pow (lt_of_lt_of_le hx64 (Nat.pow_le_pow_right (by norm_num) h))
    simp [this]

theorem getAlignedSize_eq (s a : Nat) (h1 : 1 ≤ a) (h2 : a < W) :
    getAlignedSize s a = ((s + a - 1) % W) &&& ((W - 1) ^^^ (a - 1)) := by
  have hW : 0 < W := by unfold W; positivity
  unfold getAlignedSize
  rw [show s + a + (W - 1) = (s + a - 1) + W by omega, Nat.add_mod_right,
    show a + (W - 1) = (a - 1) + W by omega, Nat.add_mod_right,
    Nat.mod_eq_of_lt (show a - 1 < W by omega)]

theorem getAlignedSize_zero (a : Nat) (h1 : 1 ≤ a) (h2 : a < W) :
    getAlignedSize 0 a = 0 := by
  rw [getAlignedSize_eq 0 a h1 h2, Nat.zero_add,
    Nat.mod_eq_of_lt (show a - 1 < W by unfold W at *; omega)]
  exact and_compl64 (a - 1) (by unfold W at *; omega)

theorem and_mask_mod (x k : Nat) (hk : k ≤ 64) :
    (x &&& ((W - 1) ^^^ (2 ^ k - 1))) % 2 ^ k = 0 := by
  apply Nat.eq_of_testBit_eq
  intro i
  rw [Nat.zero_testBit, Nat.testBit_mod_two_pow, Nat.testBit_and, Nat.testBit_xor]
  show (decide (i < k) && (x.testBit i &&
    ((2 ^ 64 - 1).testBit i).xor ((2 ^ k - 1).testBit i))) = false
  rcases lt_or_ge i k with h | h
  · rw [Nat.testBit_two_pow_sub_one, Nat.testBit_two_pow_sub_one]
    simp [h, lt_of_lt_of_le h hk, Bool.xor]
  · simp [Nat.not_lt.mpr h]

theorem getAlignedSize_mod_pow (s k : Nat) (hk : k < 64) :
    getAlignedSize s (2 ^ k) % 2 ^ k = 0 := by
  rw [getAlignedSize_eq s (2 ^ k) (Nat.one_le_two_pow)
    (W_eq ▸ Nat.pow_lt_pow_right (by norm_num) hk)]
  exact and_mask_mod _ k (le_of_lt hk)

theorem two_pow_and_pred (k : Nat) : 2 ^ k &&& (2 ^ k - 1) = 0 := by
  apply Nat.eq_of_testBit_eq
  intro i
  rw [Nat.zero_testBit, Nat.testBit_and, Nat.testBit_two_pow_sub_one,
    Nat.testBit_two_pow]
  by_cases h : k = i <;> simp [h]

theorem isAlignmentPowerOfTwo_two_pow (k : Nat) :
    isAlignmentPowerOfTwo (2 ^ k) = true := by
  unfold isAlignmentPowerOfTwo
  rw [two_pow_and_pred]
  simp [(Nat.pow_pos (show 0 < 2 by norm_num) (n := k)).ne']

/-! ## `updateLast` facts -/

theorem updateLast_add_zero_offset :
    ∀ l : List SBuffer,
      updateLast (fun lb => { lb with offset := lb.offset + 0 }) l = l
  | [] => rfl
  | [_] => rfl
  | _ :: b :: bs => by
      show _ :: updateLast _ (b :: bs) = _
      rw [updateLast_add_zero_offset (b :: bs)]

theorem updateLast_offset_self :
    ∀ l : List SBuffer,
      updateLast (fun lb => { lb with offset := lb.offset }) l = l
  | [] => rfl
  | [_] => rfl
  | _ :: b :: bs => by
      show _ :: updateLast _ (b :: bs) = _
      rw [updateLast_offset_self (b :: bs)]

/-- Core of the zero-size stack allocation analysis: when the allocator
owns memory and the effective alignment is a valid power of two, the
aligned size of a 0-byte request is 0, the request fits in place, the
returned pointer is the current top, and only the (debug) allocation
history can change. -/
theorem stackAllocateZeroCore (st : StackSt) (a : Nat) (b : SBuffer)
    (hOwns : st.ownsMemory = true)
    (hLast : st.buffers.getLast? = some b)
    (hOff : b.offset ≤ b.size)
    (hDef : ∃ j, st.alignment = 2 ^ j ∧ 2 ≤ j ∧ j < 64)
    (hA : a = 0 ∨ ∃ k, a = 2 ^ k ∧ 2 ≤ k ∧ k < 64) :
    ∃ hist, stackAllocate st 0 a =
      .ok (b.base + b.offset, { st with history := hist }) := by
  have he : ∃ j, (if a = 0 then some st.alignment
      else if !(isAlignmentPowerOfTwo a) then none
      else if a < 4 then none else some a) = some (2 ^ j) ∧ j < 64 := by
    rcases hA with rfl | ⟨k, rfl, hk2, hk64⟩
    · obtain ⟨j, hj, _, h64⟩ := hDef
      exact ⟨j, by simp [hj], h64⟩
    · refine ⟨k, ?_, hk64⟩
      have h4 : ¬ (2 ^ k < 4) :=
        Nat.not_lt.mpr (le_trans (by norm_num)
          (Nat.pow_le_pow_right (by norm_num) hk2))
      simp [isAlignmentPowerOfTwo_two_pow, h4,
        (Nat.pow_pos (show 0 < 2 by norm_num) (n := k)).ne']
  obtain ⟨j, hmatch, hj64⟩ := he
  have hz : getAlignedSize 0 (2 ^ j) = 0 :=
    getAlignedSize_zero _ Nat.one_le_two_pow
      (W_eq ▸ Nat.pow_lt_pow_right (by norm_num) hj64)
  refine ⟨if st.debugChecks then st.history ++ [(b.base + b.offset, 0)]
    else st.history, ?_⟩
  simp only [stackAllocate, hOwns, Bool.not_true, Bool.false_eq_true, if_false,
    hmatch, hz, stackTryFit, hLast, Nat.add_zero, Nat.not_lt_zero,
    gt_iff_lt, if_neg (Nat.not_lt_zero st.bufferSize), if_pos hOff,
    updateLast_add_zero_offset, updateLast_offset_self]

/-- **C1**: the claim states that any two currently-live allocations of any
allocator occupy disjoint byte ranges after every successful operation
sequence.  The code violates it: on `pool(32, 2)`, the sequence `reset();
allocate(16); allocate(16); allocate(16)` succeeds and hands out the *same*
block `2^32 + 32` as the first and the third allocation (reset pushes every
block onto the non-cleared free list, making it circular), so the two
live allocations' byte ranges coincide — their intersection is nonempty
instead of empty. -/
theorem c1_two_live_pool_allocations_collide :
    c1PoolTrace = .ok (2 ^ 32 + 32, 2 ^ 32, 2 ^ 32 + 32) ∧
    (Set.Ico (2 ^ 32 + 32 : Nat) (2 ^ 32 + 32 + 32) ∩
      Set.Ico (2 ^ 32 + 32 : Nat) (2 ^ 32 + 32 + 32)).Nonempty := by
  refine ⟨rfl, ⟨2 ^ 32 + 32, Set.mem_inter ?_ ?_⟩⟩ <;>
    exact Set.mem_Ico.mpr (by norm_num)

/-- **C2**: the claim states that `deallocate` merges the freed block iff
its buddy is currently on `free_lists[k]`, and that otherwise the block
stays on `free_lists[k]`.  The code only checks that the buddy *address*
is in bounds: after `buddy(1 MiB); p1 = alloc(2048); p2 = alloc(2048);
dealloc(p1)`, the buddy `p2 = 2^32 + 2048` is still allocated at level 1
(last component), yet `free_lists[1]` is empty (the freed block did not
stay there) and the merged block has been propagated to the top level,
`free_lists[10] = [2^32]`. -/
theorem c2_buddy_merges_with_allocated_buddy :
    c2BuddyTrace = .ok (2 ^ 32, 2 ^ 32 + 2048, none, some (2 ^ 32), some 1) :=
  rfl

/-- **C3**: the claim states that after `reset()` exactly one pool remains
with `allocated_count = 0`, `free_count = block_count`, and a free list of
exactly `block_count` distinct addresses.  On a freshly constructed
`pool(32, 2)` a single `reset()` indeed leaves one pool with
`allocated_count = 0`, but `free_count = 4 ≠ block_count = 2`, and the
free list is circular: its first three nodes are
`[2^32 + 32, 2^32, 2^32 + 32]`, the head address repeating. -/
theorem c3_pool_reset_duplicates_free_list :
    (c3ResetState.map fun st =>
      (st.pools.length, st.blockCount,
       st.pools.map Pool.freeCount, st.pools.map Pool.allocatedCount,
       st.pools.map fun p => chainNodes st.mem p.freeListHead 3)) =
    .ok (1, 2, [4], [0], [[2 ^ 32 + 32, 2 ^ 32, 2 ^ 32 + 32]]) :=
  rfl

/-- **C5**: spec scenario 5 holds on the code: on `buddy(1 MiB)`,
`p1 = alloc(2048) = 2^32` and `p2 = alloc(2048) = 2^32 + 2048` both
succeed, both deallocates complete without error, `allocated_size()` is 0
afterwards, and the subsequent `alloc(4096)` returns `2^32 = p1`. -/
theorem c5_buddy_coalesce_roundtrip :
    c5BuddyTrace = .ok (2 ^ 32, 2 ^ 32 + 2048, 0, 2 ^ 32) :=
  rfl

/-- **C6**: on `pool(32, 2, align = 16, max_pools = 2)` the first four
`allocate(16)` calls succeed (two from the initial pool, two from a grown
second pool) and the fifth fails with the max-pool-count error, which is
of the spec's CapacityExceeded kind. -/
theorem c6_pool_fifth_allocation_capacity_exceeded :
    c6PoolTrace = .ok ((2 ^ 32 + 32, 2 ^ 32, 2 ^ 33 + 32, 2 ^ 33), .maxPools) ∧
    Err.isCapacityExceeded .maxPools = true :=
  ⟨rfl, rfl⟩

/-- **C7** — counterexample to the claim as stated: on the reachable
state `stack_allocator(64); allocate(16)` (one buffer, top offset 16),
the call `reset_to_mark((2^32 + 1, 0))` supplies a mark buffer count of
`2^32 + 1`, larger than the current count 1, yet raises no error and
mutates the state (the top offset is rewritten from 16 to 0): the C++
computes `int sizeDiff = bufferSize - markTimeSize` as a wrapping
`size_t` subtraction narrowed to a 32-bit `int`, and `1 - (2^32 + 1)`
wraps to `2^64 - 2^32`, whose low 32 bits are 0, so `sizeDiff = 0` and
the fewer-buffers rejection is skipped. -/
theorem c7_truncated_size_diff_accepts_future_mark :
    c7ForgedMarkTrace =
      .ok ((⟨8, 64, false, [⟨2 ^ 32, 64, 16⟩], [(2 ^ 32, 16)], true, 1,
              true, true⟩ : StackSt),
           .ok (⟨8, 64, false, [⟨2 ^ 32, 64, 0⟩], [(2 ^ 32, 16)], true, 1,
              true, true⟩ : StackSt)) ∧
    (1 : Nat) < 4294967297 :=
  ⟨rfl, by norm_num⟩

/-! ## Stack single-buffer step lemmas (used for C9) -/

theorem sub64_of_le (a b : Nat) (h : b ≤ a) (ha : a < W) : sub64 a b = a - b := by
  unfold sub64 W at *
  omega

/-- A 16-byte allocation on a one-buffer stack state with default
alignment 8: bumps the cursor and returns base + old offset. -/
theorem stackAllocate_bump (B n off : Nat) (d : Bool) (hist : List (Nat × Nat))
    (hfit : off + 16 ≤ n) :
    stackAllocate ⟨8, n, false, [⟨B, n, off⟩], hist, true, 1, d, true⟩ 16 0 =
      .ok (B + off,
        ⟨8, n, false, [⟨B, n, off + 16⟩],
         if d = true then hist ++ [(B + off, 16)] else hist, true, 1, d, true⟩) := by
  have e1 : getAlignedSize 16 8 = 16 := rfl
  simp only [stackAllocate, e1, Bool.not_true, Bool.false_eq_true, if_false, if_true]
  rw [if_neg (show ¬(16 > n) by omega)]
  simp only [stackTryFit, List.getLast?_singleton]
  rw [if_pos (show off + 16 ≤ n from hfit)]
  rfl

/-- LIFO deallocation of the top 16-byte allocation, debug-checked path:
the top history record matches and the cursor moves back by its size. -/
theorem stackDeallocate_lifo_debug (B n : Nat) (hist : List (Nat × Nat)) :
    stackDeallocate
        ⟨8, n, false, [⟨B, n, 32⟩], hist ++ [(B + 16, 16)], true, 1, true, true⟩
        (B + 16) =
      .ok ⟨8, n, false, [⟨B, n, 16⟩], hist, true, 1, true, true⟩ := by
  simp only [stackDeallocate]
  rw [if_neg (show ¬(B + 16 = 0) by omega)]
  simp only [Bool.not_true, Bool.false_eq_true, if_false, if_true,
    List.getLast?_singleton, List.getLast?_concat]
  rw [if_neg (show ¬(B + 16 ≠ B + 16) by omega)]
  simp only [updateLast, List.dropLast_concat]
  rw [sub64_of_le 32 16 (by norm_num) (by norm_num [W])]
  rfl

/-- LIFO deallocation of the top 16-byte allocation, inference path
(debug checks off): the size is the distance from the pointer to the top. -/
theorem stackDeallocate_lifo_infer (B n : Nat) (hist : List (Nat × Nat)) :
    stackDeallocate ⟨8, n, false, [⟨B, n, 32⟩], hist, true, 1, false, true⟩
        (B + 16) =
      .ok ⟨8, n, false, [⟨B, n, 16⟩], hist, true, 1, false, true⟩ := by
  simp only [stackDeallocate]
  rw [if_neg (show ¬(B + 16 = 0) by omega)]
  simp only [Bool.not_true, Bool.false_eq_true, if_false, List.getLast?_singleton]
  rw [if_neg (show ¬(B + 16 ≥ B + 32) by omega)]
  simp only [updateLast]
  rw [show B + 32 - (B + 16) = 16 by omega]
  rw [if_neg (show ¬((16 : Nat) > 32) by norm_num)]
  rfl

/-- `stack_allocator(n)` with defaults: one fresh buffer at the first
region address. -/
theorem stackCtor_default (n : Nat) (hM : n ≤ 2 ^ 26) :
    stackCtor n 0 false =
      .ok ⟨8, n, false, [⟨4294967296, n, 0⟩], [], true, 1, true, true⟩ := by
  unfold stackCtor
  rw [if_neg (show ¬(n > POOL_MAX_CAPACITY) by unfold POOL_MAX_CAPACITY; omega)]
  rfl

/-- **C9**: on a fresh stack allocator with `buffer_size ≥ 48` (default
alignment 8), `p1 = allocate(16)`, `p2 = allocate(16)`, `deallocate(p2)`,
`p3 = allocate(16)` yields `p3 = p2 = base + 16` — under either setting
`d` of the debug-checks flag, i.e. through both the debug-checked and the
inference-based deallocation path. -/
theorem c9_stack_lifo_roundtrip (n : Nat) (d : Bool)
    (h48 : 48 ≤ n) (hM : n ≤ 2 ^ 26) :
    ∃ st1 st2 st3 st4 st5,
      stackCtor n 0 false = .ok st1 ∧
      stackAllocate { st1 with debugChecks := d } 16 0 =
        .ok (4294967296, st2) ∧
      stackAllocate st2 16 0 = .ok (4294967296 + 16, st3) ∧
      stackDeallocate st3 (4294967296 + 16) = .ok st4 ∧
      stackAllocate st4 16 0 = .ok (4294967296 + 16, st5) := by
  cases d
  · exact ⟨_, _, _, _, _, stackCtor_default n hM,
      stackAllocate_bump 4294967296 n 0 false [] (by omega),
      stackAllocate_bump 4294967296 n 16 false _ (by omega),
      stackDeallocate_lifo_infer 4294967296 n _,
      stackAllocate_bump 4294967296 n 16 false _ (by omega)⟩
  · exact ⟨_, _, _, _, _, stackCtor_default n hM,
      stackAllocate_bump 4294967296 n 0 true [] (by omega),
      stackAllocate_bump 4294967296 n 16 true _ (by omega),
      stackDeallocate_lifo_debug 4294967296 n _,
      stackAllocate_bump 4294967296 n 16 true _ (by omega)⟩

/-- Witness for C9 at `buffer_size = 48`, in both flag settings. -/
theorem c9_stack_lifo_roundtrip_witness :
    (∃ st1 st2 st3 st4 st5,
      stackCtor 48 0 false = .ok st1 ∧
      stackAllocate { st1 with debugChecks := true } 16 0 =
        .ok (4294967296, st2) ∧
      stackAllocate st2 16 0 = .ok (4294967296 + 16, st3) ∧
      stackDeallocate st3 (4294967296 + 16) = .ok st4 ∧
      stackAllocate st4 16 0 = .ok (4294967296 + 16, st5)) ∧
    (∃ st1 st2 st3 st4 st5,
      stackCtor 48 0 false = .ok st1 ∧
      stackAllocate { st1 with debugChecks := false } 16 0 =
        .ok (4294967296, st2) ∧
      stackAllocate st2 16 0 = .ok (4294967296 + 16, st3) ∧
      stackDeallocate st3 (4294967296 + 16) = .ok st4 ∧
      stackAllocate st4 16 0 = .ok (4294967296 + 16, st5)) :=
  ⟨c9_stack_lifo_roundtrip 48 true (by decide) (by decide),
   c9_stack_lifo_roundtrip 48 false (by decide) (by decide)⟩

/-- **C10**: on a stack allocator that owns memory, `allocate(0)` — with
the default or any valid power-of-two per-call alignment — succeeds,
returns the current top address (last buffer's base plus offset, which is
one past the end when the buffer is full), leaves the buffers (hence every
offset and `allocated_size()`) unchanged, and a second `allocate(0)`
returns the same pointer. -/
theorem c10_stack_allocate_zero_returns_top (st : StackSt) (a : Nat) (b : SBuffer)
    (hOwns : st.ownsMemory = true)
    (hLast : st.buffers.getLast? = some b)
    (hOff : b.offset ≤ b.size)
    (hDef : ∃ j, st.alignment = 2 ^ j ∧ 2 ≤ j ∧ j < 64)
    (hA : a = 0 ∨ ∃ k, a = 2 ^ k ∧ 2 ≤ k ∧ k < 64) :
    ∃ st', stackAllocate st 0 a = .ok (b.base + b.offset, st') ∧
      st'.buffers = st.buffers ∧
      stackAllocatedSize st' = stackAllocatedSize st ∧
      ∀ p₂ st'', stackAllocate st' 0 a = .ok (p₂, st'') →
        p₂ = b.base + b.offset := by
  obtain ⟨hist, h1⟩ := stackAllocateZeroCore st a b hOwns hLast hOff hDef hA
  refine ⟨_, h1, rfl, rfl, fun p₂ st'' h2 => ?_⟩
  obtain ⟨hist₂, h3⟩ :=
    stackAllocateZeroCore { st with history := hist } a b hOwns hLast hOff hDef hA
  rw [h3] at h2
  exact ((Prod.mk.injEq _ _ _ _).mp (Except.ok.inj h2)).1.symm

/-- Witness for C10: a fresh `stack_allocator(64)` state and `allocate(0, 0)`. -/
theorem c10_stack_allocate_zero_returns_top_witness :
    ∃ st', stackAllocate sampleStack 0 0 = .ok (2 ^ 32 + 0, st') ∧
      st'.buffers = sampleStack.buffers ∧
      stackAllocatedSize st' = stackAllocatedSize sampleStack ∧
      ∀ p₂ st'', stackAllocate st' 0 0 = .ok (p₂, st'') → p₂ = 2 ^ 32 + 0 :=
  c10_stack_allocate_zero_returns_top sampleStack 0
    { base := 2 ^ 32, size := 64, offset := 0 } rfl rfl (by decide)
    ⟨3, rfl, by decide, by decide⟩ (Or.inl rfl)

/-! ## Lemmas for the amended C4 -/

theorem regionBase_pos (s : Nat) : 0 < regionBase s := by
  cases s with
  | zero => norm_num [regionBase]
  | succ s =>
      show 0 < regionBase s + 4294967296
      omega

theorem getLast?_updateLast (f : SBuffer → SBuffer) (l : List SBuffer)
    (b : SBuffer) (h : l.getLast? = some b) :
    (updateLast f l).getLast? = some (f b) := by
  induction l with
  | nil => simp at h
  | cons x xs ih =>
    cases xs with
    | nil =>
      simp only [List.getLast?_singleton, Option.some.injEq] at h
      subst h
      rfl
    | cons y ys =>
      rw [List.getLast?_cons_cons] at h
      have hrec := ih h
      obtain ⟨z, zs, e⟩ : ∃ z zs, updateLast f (y :: ys) = z :: zs := by
        cases ys <;> exact ⟨_, _, rfl⟩
      show (x :: updateLast f (y :: ys)).getLast? = some (f b)
      rw [e, List.getLast?_cons_cons, ← e, hrec]

/-- Soundness of the fast path: a successful in-place bump returns the
base-plus-old-offset of the last buffer, which then holds the whole
aligned request. -/
theorem tryFit_sound (s : StackSt) (A ptr : Nat) (st' : StackSt)
    (hB : ∀ bf ∈ s.buffers, 0 < bf.base)
    (hFit : stackTryFit s A = some (ptr, st')) :
    ∃ b, st'.buffers.getLast? = some b ∧ 0 < ptr ∧ b.base ≤ ptr ∧
      ptr + A ≤ b.base + b.size := by
  unfold stackTryFit at hFit
  cases hL : s.buffers.getLast? with
  | none => rw [hL] at hFit; exact absurd hFit (by simp)
  | some b =>
    rw [hL] at hFit
    have hFit2 : (if b.offset + A ≤ b.size then
        some (b.base + b.offset,
          { s with
            buffers := updateLast (fun lb => { lb with offset := lb.offset + A }) s.buffers
            history := if s.debugChecks then s.history ++ [(b.base + b.offset, A)]
              else s.history })
        else none) = some (ptr, st') := hFit
    by_cases hfit : b.offset + A ≤ b.size
    · rw [if_pos hfit] at hFit2
      obtain ⟨hptr, hst'⟩ : b.base + b.offset = ptr ∧ _ = st' := by
        simpa using hFit2
      have hb : 0 < b.base := hB b (List.mem_of_mem_getLast? (hL ▸ rfl))
      refine ⟨{ b with offset := b.offset + A }, ?_, by omega, ?_, ?_⟩
      · rw [← hst']
        exact getLast?_updateLast _ s.buffers b hL
      · show b.base ≤ ptr; omega
      · show ptr + A ≤ b.base + b.size; omega
    · rw [if_neg hfit] at hFit2
      exact absurd hFit2 (by simp)

/-- The stack half of the amended pointer-validity property. -/
theorem c4StackAux (st : StackSt) (size align ptr : Nat) (st' : StackSt)
    (hBase : ∀ bf ∈ st.buffers, 0 < bf.base)
    (hDef : ∃ j, st.alignment = 2 ^ j ∧ 2 ≤ j ∧ j < 64)
    (hA : align = 0 ∨ ∃ k, align = 2 ^ k ∧ 2 ≤ k ∧ k < 64)
    (h : stackAllocate st size align = .ok (ptr, st')) :
    ∃ b e, st'.buffers.getLast? = some b ∧
      (align = 0 ∧ e = st.alignment ∨ 0 < align ∧ e = align) ∧
      0 < ptr ∧ b.base ≤ ptr ∧
      ptr + getAlignedSize size e ≤ b.base + b.size ∧
      getAlignedSize size e % e = 0 := by
  cases hOb : st.ownsMemory with
  | false => simp [stackAllocate, hOb] at h
  | true =>
    obtain ⟨e, j, hej, hj64, hmatch, hcase⟩ :
        ∃ e j, e = 2 ^ j ∧ j < 64 ∧
          (if align = 0 then some st.alignment
           else if !(isAlignmentPowerOfTwo align) then none
           else if align < 4 then none else some align) = some e ∧
          (align = 0 ∧ e = st.alignment ∨ 0 < align ∧ e = align) := by
      rcases hA with rfl | ⟨k, rfl, hk2, hk64⟩
      · obtain ⟨j, hj, _, h64⟩ := hDef
        exact ⟨st.alignment, j, hj, h64, by simp, Or.inl ⟨rfl, rfl⟩⟩
      · have h4 : ¬ (2 ^ k < 4) :=
          Nat.not_lt.mpr (le_trans (by norm_num)
            (Nat.pow_le_pow_right (by norm_num) hk2))
        refine ⟨2 ^ k, k, rfl, hk64, ?_,
          Or.inr ⟨Nat.pos_pow_of_pos k (by norm_num), rfl⟩⟩
        simp [isAlignmentPowerOfTwo_two_pow, h4,
          (Nat.pow_pos (show 0 < 2 by norm_num) (n := k)).ne']
    have hmod : getAlignedSize size e % e = 0 := by
      rw [hej]; exact getAlignedSize_mod_pow size j hj64
    simp only [stackAllocate, hOb, Bool.not_true, Bool.false_eq_true, if_false,
      hmatch] at h
    split at h
    · exact absurd h (by simp)
    next hsz =>
      cases hFit : stackTryFit st (getAlignedSize size e) with
      | some r =>
        rw [hFit] at h
        have h2 : (Except.ok r : Except Err (Nat × StackSt)) = .ok (ptr, st') := h
        obtain rfl : r = (ptr, st') := by simpa using h2
        obtain ⟨b, hb⟩ := tryFit_sound st _ ptr st' hBase hFit
        exact ⟨b, e, hb.1, hcase, hb.2.1, hb.2.2.1, hb.2.2.2, hmod⟩
      | none =>
        rw [hFit] at h
        have h2 : (if st.buffers.isEmpty = true then
            (Except.error Err.undefinedBehavior : Except Err (Nat × StackSt))
            else do
              let st'' ← allocateNewBuffer st
              match stackTryFit st'' (getAlignedSize size e) with
              | some r => Except.ok r
              | none => Except.error Err.fuelExhausted) = .ok (ptr, st') := h
        split at h2
        · exact absurd h2 (by simp)
        have hCoreB : ∀ bf ∈ (allocateNewBuffer.allocateNewBufferCore st).buffers,
            0 < bf.base := by
          intro bf hbf
          rcases List.mem_append.mp hbf with hm | hm
          · exact hBase bf hm
          · rw [List.mem_singleton.mp hm]
            exact regionBase_pos st.supply
        have hFin : ∀ (hc : (match stackTryFit (allocateNewBuffer.allocateNewBufferCore st)
              (getAlignedSize size e) with
            | some r => (Except.ok r : Except Err (Nat × StackSt))
            | none => Except.error Err.fuelExhausted) = .ok (ptr, st')),
            ∃ b e, st'.buffers.getLast? = some b ∧
              (align = 0 ∧ e = st.alignment ∨ 0 < align ∧ e = align) ∧
              0 < ptr ∧ b.base ≤ ptr ∧
              ptr + getAlignedSize size e ≤ b.base + b.size ∧
              getAlignedSize size e % e = 0 := by
          intro hc
          cases hTF : stackTryFit (allocateNewBuffer.allocateNewBufferCore st)
              (getAlignedSize size e) with
          | none => rw [hTF] at hc; exact absurd hc (by simp)
          | some r =>
            rw [hTF] at hc
            have hc2 : (Except.ok r : Except Err (Nat × StackSt)) = .ok (ptr, st') := hc
            obtain rfl : r = (ptr, st') := by simpa using hc2
            obtain ⟨b, hb⟩ := tryFit_sound _ _ ptr st' hCoreB hTF
            exact ⟨b, e, hb.1, hcase, hb.2.1, hb.2.2.1, hb.2.2.2, hmod⟩
        unfold allocateNewBuffer at h2
        split at h2
        · split at h2
          · exact absurd h2 (by simp [Bind.bind, Except.bind])
          · split at h2
            · exact absurd h2 (by simp [Bind.bind, Except.bind])
            · exact hFin h2
        · exact hFin h2

theorem popFirstFree_none (mem : Mem) :
    ∀ ps : List Pool, popFirstFree mem ps = none →
      ∀ p ∈ ps, p.freeListHead = none := by
  intro ps
  induction ps with
  | nil => intro _ p hp; simp at hp
  | cons q rest ih =>
    intro h p hp
    unfold popFirstFree at h
    cases hq : q.freeListHead with
    | some b => rw [hq] at h; exact absurd h (by simp)
    | none =>
      rw [hq] at h
      cases hr : popFirstFree mem rest with
      | some pr =>
        rw [hr] at h
        obtain ⟨b, ps2⟩ := pr
        exact absurd (show (some (b, q :: ps2) : Option (Nat × List Pool)) = none from h)
          (by simp)
      | none =>
        rcases List.mem_cons.mp hp with rfl | hm
        · exact hq
        · exact ih hr p hm

theorem popFirstFree_sound (mem : Mem) (count bs : Nat) :
    ∀ ps : List Pool,
      (∀ p ∈ ps, p.freeListHead = none ∨
        ∃ b, p.freeListHead = some b ∧ GoodBlock count bs p b) →
      ∀ b ps', popFirstFree mem ps = some (b, ps') →
      ∃ p, p ∈ ps ∧ GoodBlock count bs p b ∧
        ∃ p', p' ∈ ps' ∧ p'.base = p.base ∧ p'.size = p.size := by
  intro ps
  induction ps with
  | nil => intro _ b ps' h; simp [popFirstFree] at h
  | cons q rest ih =>
    intro hG b ps' h
    unfold popFirstFree at h
    cases hq : q.freeListHead with
    | some hb =>
      rw [hq] at h
      simp only [Option.some.injEq, Prod.mk.injEq] at h
      obtain ⟨hb_eq, hps'⟩ := h
      rcases hG q (List.mem_cons_self q rest) with hnone | ⟨b', hb', good⟩
      · rw [hq] at hnone; exact absurd hnone (by simp)
      · have hb'_eq : b' = hb := by
          rw [hq] at hb'
          simpa using hb'.symm
        refine ⟨q, List.mem_cons_self q rest, ?_, ?_⟩
        · rw [← hb_eq, ← hb'_eq]; exact good
        · refine ⟨{ q with freeListHead := mem hb, allocatedCount := q.allocatedCount + 1, freeCount := q.freeCount - 1 }, ?_, rfl, rfl⟩
          rw [← hps']
          exact List.mem_cons_self _ rest
    | none =>
      rw [hq] at h
      cases hr : popFirstFree mem rest with
      | none => rw [hr] at h; exact absurd h (by simp)
      | some pr =>
        rw [hr] at h
        obtain ⟨b2, rest'⟩ := pr
        have h2 : (some (b2, q :: rest') : Option (Nat × List Pool)) =
            some (b, ps') := h
        simp only [Option.some.injEq, Prod.mk.injEq] at h2
        obtain ⟨rfl, rfl⟩ := h2
        obtain ⟨p, hp, good, p', hp', e1, e2⟩ :=
          ih (fun p hp => hG p (List.mem_cons_of_mem _ hp)) b2 rest' hr
        exact ⟨p, List.mem_cons_of_mem _ hp, good,
          p', List.mem_cons_of_mem _ hp', e1, e2⟩

theorem popFirstFree_append_single (mem : Mem) (q : Pool) :
    ∀ ps : List Pool, (∀ p ∈ ps, p.freeListHead = none) →
      popFirstFree mem (ps ++ [q]) =
        match q.freeListHead with
        | some b => some (b, ps ++ [{ q with
            freeListHead := mem b
            allocatedCount := q.allocatedCount + 1
            freeCount := q.freeCount - 1 }])
        | none => none := by
  intro ps
  induction ps with
  | nil =>
    intro _
    cases hq : q.freeListHead <;> simp [popFirstFree, hq]
  | cons p rest ih =>
    intro hH
    have hp : p.freeListHead = none := hH p (List.mem_cons_self p rest)
    show popFirstFree mem (p :: (rest ++ [q])) = _
    unfold popFirstFree
    rw [hp, ih (fun r hr => hH r (List.mem_cons_of_mem _ hr))]
    cases hq : q.freeListHead <;> simp [hq]

theorem threadLoop_head (mem : Mem) (head : Option Nat) (fc base bs n i : Nat)
    (hn : n ≠ 0) :
    (threadLoop mem head fc base bs i n).2.1 =
      some (base + (i + n - 1) * bs) := by
  induction n generalizing mem head fc i with
  | zero => exact absurd rfl hn
  | succ m ih =>
    show (threadLoop (writePtr mem (base + i * bs) head) (some (base + i * bs))
      (fc + 1) base bs (i + 1) m).2.1 = _
    cases m with
    | zero =>
      show some (base + i * bs) = some (base + (i + 1 - 1) * bs)
      rw [show i + 1 - 1 = i from by omega]
    | succ l =>
      rw [ih _ _ _ _ (by omega),
        show i + 1 + (l + 1) - 1 = i + (l + 1 + 1) - 1 from by omega]

/-- The pool half of the amended pointer-validity property. -/
theorem c4PoolAux (st : PoolSt) (size align ptr : Nat) (st' : PoolSt)
    (hwf : PoolHeadsGood st)
    (h : poolAllocate st size align = .ok (ptr, st')) :
    ∃ p ∈ st'.pools, 0 < ptr ∧ p.base ≤ ptr ∧
      ptr + st.blockSize ≤ p.base + p.size ∧
      (ptr - p.base) % st.blockSize = 0 := by
  obtain ⟨hbs, hps, hpools⟩ := hwf
  simp only [poolAllocate] at h
  split at h
  · exact absurd h (by simp)
  split at h
  · exact absurd h (by simp)
  cases hPop : popFirstFree st.mem st.pools with
  | some r =>
    rw [hPop] at h
    obtain ⟨b2, ps'⟩ := r
    obtain ⟨rfl, rfl⟩ : b2 = ptr ∧ ({ st with pools := ps' } : PoolSt) = st' := by
      simpa using (show (Except.ok (b2, ({ st with pools := ps' } : PoolSt)) :
        Except Err (Nat × PoolSt)) = .ok (ptr, st') from h)
    obtain ⟨p, hp, ⟨i, hi, hib⟩, p', hp', e1, e2⟩ :=
      popFirstFree_sound st.mem st.blockCount st.blockSize st.pools
        (fun p hp => (hpools p hp).2.2) b2 ps' hPop
    have hpbase : 0 < p.base := (hpools p hp).1
    have hpsize : p.size = st.poolSize := (hpools p hp).2.1
    have hbound : i * st.blockSize + st.blockSize ≤
        st.blockSize * st.blockCount := by
      rw [← Nat.succ_mul, Nat.mul_comm]
      exact Nat.mul_le_mul_left st.blockSize hi
    refine ⟨p', hp', ?_, ?_, ?_, ?_⟩
    · omega
    · rw [e1]; omega
    · rw [e1, e2, hpsize, hps, hib]; omega
    · rw [e1, hib, Nat.add_sub_cancel_left]
      exact Nat.mul_mod_left i st.blockSize
  | none =>
    rw [hPop] at h
    have hnone := popFirstFree_none st.mem st.pools hPop
    have hFin : ∀ (hc : (match popFirstFree
          (allocateNewPool.allocateNewPoolCore st).mem
          (allocateNewPool.allocateNewPoolCore st).pools with
        | some (b, ps) =>
            (Except.ok (b, { allocateNewPool.allocateNewPoolCore st with pools := ps }) :
              Except Err (Nat × PoolSt))
        | none => Except.error Err.fuelExhausted) = .ok (ptr, st')),
        ∃ p ∈ st'.pools, 0 < ptr ∧ p.base ≤ ptr ∧
          ptr + st.blockSize ≤ p.base + p.size ∧
          (ptr - p.base) % st.blockSize = 0 := by
      intro hc
      have hpools2 : (allocateNewPool.allocateNewPoolCore st).pools =
          st.pools ++ [{
            base := regionBase st.supply
            size := st.poolSize
            freeListHead := (threadLoop st.mem none 0 (regionBase st.supply)
              st.blockSize 0 st.blockCount).2.1
            allocatedCount := 0
            freeCount := (threadLoop st.mem none 0 (regionBase st.supply)
              st.blockSize 0 st.blockCount).2.2 }] := rfl
      rw [hpools2, popFirstFree_append_single _ _ st.pools hnone] at hc
      cases hcount : st.blockCount with
      | zero =>
        rw [hcount] at hc
        exact absurd hc (by simp [threadLoop])
      | succ m =>
        rw [hcount, threadLoop_head _ _ _ _ _ _ _ (by omega)] at hc
        obtain ⟨rfl, rfl⟩ := show regionBase st.supply + (0 + (m + 1) - 1) *
            st.blockSize = ptr ∧ _ = st' by simpa using hc
        refine ⟨_, List.mem_append_right _ (List.mem_singleton.mpr rfl), ?_, ?_, ?_, ?_⟩
        · have := regionBase_pos st.supply
          omega
        · show regionBase st.supply ≤ _
          omega
        · show regionBase st.supply + (0 + (m + 1) - 1) * st.blockSize +
            st.blockSize ≤ regionBase st.supply + st.poolSize
          rw [hps, hcount]
          have : (0 + (m + 1) - 1) * st.blockSize + st.blockSize =
              (m + 1) * st.blockSize := by
            rw [show 0 + (m + 1) - 1 = m by omega, ← Nat.succ_mul]
          rw [Nat.mul_comm st.blockSize (m + 1)]
          omega
        · show (regionBase st.supply + (0 + (m + 1) - 1) * st.blockSize -
            regionBase st.supply) % st.blockSize = 0
          rw [Nat.add_sub_cancel_left]
          exact Nat.mul_mod_left _ st.blockSize
    cases hNew : allocateNewPool st with
    | error e =>
      rw [hNew] at h
      simp [Bind.bind, Except.bind] at h
    | ok st2 =>
      rw [hNew] at h
      simp only [Bind.bind, Except.bind] at h
      have hcore : st2 = allocateNewPool.allocateNewPoolCore st := by
        unfold allocateNewPool at hNew
        split at hNew
        · split at hNew
          · exact absurd hNew (by simp)
          · split at hNew
            · exact absurd hNew (by simp)
            · simpa using hNew.symm
        · simpa using hNew.symm
      rw [hcore] at h
      exact hFin h

/-- **C4** — counterexample to the claim as stated: on `stack(256, 8)`,
after `allocate(4, 4)` the call `allocate(16, 16)` succeeds (16 is a
valid power-of-two per-call alignment) yet returns `2^32 + 4`, whose
address is not a multiple of 16: the stack applies the per-call alignment
to the size only, never realigning the cursor. -/
theorem c4_per_call_alignment_not_on_address :
    c4StackTrace = .ok (2 ^ 32, 2 ^ 32 + 4) ∧ (2 ^ 32 + 4) % 16 ≠ 0 :=
  ⟨rfl, by norm_num⟩

/-- **C4** (amended): for every successful `allocate(size, alignment)`
with a valid power-of-two per-call alignment, the returned pointer is
non-null and the aligned request fits inside an owned region starting at
it; the per-call alignment is applied to the *size* (rounded up to a
multiple of the effective alignment), not to the returned address.  The
pool returns a block address at a multiple of `aligned_block_size` from
its pool base (the per-call alignment is ignored entirely). -/
theorem c4_pointer_validity_amended :
    (∀ (st : StackSt) (size align ptr : Nat) (st' : StackSt),
      (∀ bf ∈ st.buffers, 0 < bf.base) →
      (∃ j, st.alignment = 2 ^ j ∧ 2 ≤ j ∧ j < 64) →
      (align = 0 ∨ ∃ k, align = 2 ^ k ∧ 2 ≤ k ∧ k < 64) →
      stackAllocate st size align = .ok (ptr, st') →
      ∃ b e, st'.buffers.getLast? = some b ∧
        (align = 0 ∧ e = st.alignment ∨ 0 < align ∧ e = align) ∧
        0 < ptr ∧ b.base ≤ ptr ∧
        ptr + getAlignedSize size e ≤ b.base + b.size ∧
        getAlignedSize size e % e = 0) ∧
    (∀ (st : PoolSt) (size align ptr : Nat) (st' : PoolSt),
      PoolHeadsGood st →
      poolAllocate st size align = .ok (ptr, st') →
      ∃ p ∈ st'.pools, 0 < ptr ∧ p.base ≤ ptr ∧
        ptr + st.blockSize ≤ p.base + p.size ∧
        (ptr - p.base) % st.blockSize = 0) :=
  ⟨fun st size align ptr st' h1 h2 h3 h4 =>
      c4StackAux st size align ptr st' h1 h2 h3 h4,
   fun st size align ptr st' h1 h2 => c4PoolAux st size align ptr st' h1 h2⟩

/-- Witness for the amended C4: `allocate(16)` on the fresh
`stack_allocator(64)` state, and `allocate(16)` on the fresh
`pool_allocator(32, 2)` state. -/
theorem c4_pointer_validity_amended_witness :
    (∃ b e, (⟨8, 64, false, [⟨2 ^ 32, 64, 16⟩], [(2 ^ 32, 16)], true, 1,
        true, true⟩ : StackSt).buffers.getLast? = some b ∧
      ((0 : Nat) = 0 ∧ e = sampleStack.alignment ∨ 0 < 0 ∧ e = 0) ∧
      0 < 2 ^ 32 ∧ b.base ≤ 2 ^ 32 ∧
      2 ^ 32 + getAlignedSize 16 e ≤ b.base + b.size ∧
      getAlignedSize 16 e % e = 0) ∧
    (∃ p ∈ ({ samplePool with
        pools := [{
          base := 4294967296
          size := 64
          freeListHead := some 4294967296
          allocatedCount := 1
          freeCount := 1 }] } : PoolSt).pools,
      0 < 4294967328 ∧ p.base ≤ 4294967328 ∧
      4294967328 + samplePool.blockSize ≤ p.base + p.size ∧
      (4294967328 - p.base) % samplePool.blockSize = 0) :=
  ⟨c4_pointer_validity_amended.1 sampleStack 16 0 (2 ^ 32)
      ⟨8, 64, false, [⟨2 ^ 32, 64, 16⟩], [(2 ^ 32, 16)], true, 1, true, true⟩
      (by decide) ⟨3, rfl, by decide, by decide⟩ (Or.inl rfl) rfl,
   c4_pointer_validity_amended.2 samplePool 16 0 4294967328
      { samplePool with
        pools := [{
          base := 4294967296
          size := 64
          freeListHead := some 4294967296
          allocatedCount := 1
          freeCount := 1 }] }
      ⟨by decide, by decide, by
        intro p hp
        rw [List.mem_singleton.mp hp]
        exact ⟨by decide, rfl,
          Or.inr ⟨4294967328, rfl, 1, by decide, by decide⟩⟩⟩
      rfl⟩

/-! ## Buddy level arithmetic (used for C8) -/

theorem log2Go_pow : ∀ (fuel L : Nat), L < fuel → log2Go (2 ^ L) fuel = L := by
  intro fuel
  induction fuel with
  | zero => intro L h; omega
  | succ f ih =>
    intro L h
    cases L with
    | zero => simp [log2Go]
    | succ k =>
      have h2 : 2 ≤ 2 ^ (k + 1) := by
        calc (2 : Nat) = 2 ^ 1 := by norm_num
          _ ≤ 2 ^ (k + 1) := Nat.pow_le_pow_right (by norm_num) (by omega)
      have hdiv : 2 ^ (k + 1) / 2 = 2 ^ k := by
        rw [Nat.pow_succ, Nat.mul_div_cancel]
        norm_num
      show (if 2 ≤ 2 ^ (k + 1) then log2Go (2 ^ (k + 1) / 2) f + 1 else 0) = k + 1
      rw [if_pos h2, hdiv, ih k (by omega)]

theorem log2Go_le : ∀ (fuel n L : Nat), n < 2 ^ (L + 1) → log2Go n fuel ≤ L := by
  intro fuel
  induction fuel with
  | zero => intro n L _; exact Nat.zero_le L
  | succ f ih =>
    intro n L h
    show (if 2 ≤ n then log2Go (n / 2) f + 1 else 0) ≤ L
    by_cases h2 : 2 ≤ n
    · rw [if_pos h2]
      cases L with
      | zero => omega
      | succ k =>
        have : n / 2 < 2 ^ (k + 1) := by
          apply Nat.div_lt_of_lt_mul
          calc n < 2 ^ (k + 1 + 1) := h
            _ = 2 * 2 ^ (k + 1) := by ring
        have := ih (n / 2) k this
        omega
    · rw [if_neg h2]; exact Nat.zero_le L

theorem powLoop_le : ∀ (fuel j m s : Nat), j ≤ m → s ≤ 2 ^ m →
    powLoop (2 ^ j) s fuel ≤ 2 ^ m := by
  intro fuel
  induction fuel with
  | zero =>
    intro j m s hj _
    exact Nat.pow_le_pow_right (by norm_num) hj
  | succ f ih =>
    intro j m s hj hs
    show (if 2 ^ j < s then powLoop (2 * 2 ^ j) s f else 2 ^ j) ≤ 2 ^ m
    by_cases hlt : 2 ^ j < s
    · rw [if_pos hlt]
      have hjm : j < m :=
        (Nat.pow_lt_pow_iff_right (by norm_num)).mp (lt_of_lt_of_le hlt hs)
      have h2 : 2 * 2 ^ j = 2 ^ (j + 1) := by ring
      rw [h2]
      exact ih (j + 1) m s (by omega) hs
    · rw [if_neg hlt]
      exact Nat.pow_le_pow_right (by norm_num) hj

theorem getPowerOfTwo_le (size m : Nat) (hm : 10 ≤ m) (h : size ≤ 2 ^ m) :
    getPowerOfTwo size ≤ 2 ^ m := by
  unfold getPowerOfTwo BUDDY_MIN_CAPACITY
  split
  · calc (1024 : Nat) = 2 ^ 10 := by norm_num
      _ ≤ 2 ^ m := Nat.pow_le_pow_right (by norm_num) hm
  · exact powLoop_le 64 0 m size (by omega) h

theorem getLevel_le (size L : Nat) (h : size ≤ 2 ^ (10 + L)) :
    getLevel (getPowerOfTwo size) ≤ L := by
  unfold getLevel BUDDY_MIN_CAPACITY
  apply log2Go_le
  have h1 : getPowerOfTwo size ≤ 2 ^ (10 + L) :=
    getPowerOfTwo_le size (10 + L) (by omega) h
  have h2 : getPowerOfTwo size / 1024 ≤ 2 ^ (10 + L) / 1024 :=
    Nat.div_le_div_right h1
  have h3 : 2 ^ (10 + L) / 1024 = 2 ^ L := by
    rw [Nat.pow_add]
    norm_num
  have h4 : (2 : Nat) ^ L < 2 ^ (L + 1) :=
    Nat.pow_lt_pow_right (by norm_num) (by omega)
  omega

theorem getLevel_pow (L : Nat) (hL : L < 64) : getLevel (2 ^ (10 + L)) = L := by
  unfold getLevel BUDDY_MIN_CAPACITY
  have h3 : 2 ^ (10 + L) / 1024 = 2 ^ L := by
    rw [Nat.pow_add]
    norm_num
  rw [h3]
  exact log2Go_pow 64 L (by omega)

theorem findNonEmptyGo_single (base L : Nat) :
    ∀ rem start, start ≤ L → L < start + rem →
      findNonEmptyGo (fun i => if i = L then some base else none) start rem =
        some L := by
  intro rem
  induction rem with
  | zero => intro start _ h; omega
  | succ r ih =>
    intro start hs hlt
    by_cases hse : start = L
    · subst hse
      show (match (if start = start then some base else none) with
        | some _ => some start
        | none => findNonEmptyGo _ (start + 1) r) = some start
      rw [if_pos rfl]
    · show (match (if start = L then some base else none) with
        | some _ => some start
        | none => findNonEmptyGo _ (start + 1) r) = some L
      rw [if_neg hse]
      exact ih (start + 1) (by omega) (by omega)

/-- After `release()` then `reset()`, the buddy allocator can satisfy any
request that fits in the buffer: the fresh buffer sits alone on
`free_lists[initial_level]` and is popped (and split as needed). -/
theorem buddyResetAllocateOk (st : BuddySt) (size L : Nat)
    (hbs : st.buffersize = 2 ^ (10 + L)) (hL : L ≤ 17)
    (hsz : size ≤ st.buffersize) :
    ∃ r, buddyAllocate (buddyReset (buddyRelease st)) size 0 = .ok r := by
  have hLv : getLevel st.buffersize = L := by
    rw [hbs]; exact getLevel_pow L (by omega)
  have hHeads : (buddyReset (buddyRelease st)).heads =
      setHead (fun _ => none) L (some (regionBase st.supply)) := by
    show setHead (fun _ => none) (getLevel st.buffersize)
      (some (regionBase st.supply)) = _
    rw [hLv]
  have hOwns : (buddyReset (buddyRelease st)).ownsMemory = true := rfl
  have hBs : (buddyReset (buddyRelease st)).buffersize = st.buffersize := rfl
  have hlev : getLevel (getPowerOfTwo size) ≤ L :=
    getLevel_le size L (hbs ▸ hsz)
  have hAtL : (buddyReset (buddyRelease st)).heads L =
      some (regionBase st.supply) := by
    rw [hHeads]
    show (if L = L then some (regionBase st.supply) else none) = _
    rw [if_pos rfl]
  have hgetL : getFirstFreeBuddy (buddyReset (buddyRelease st)) L =
      .ok (some (regionBase st.supply),
        { buddyReset (buddyRelease st) with
          heads := setHead (buddyReset (buddyRelease st)).heads L
            ((buddyReset (buddyRelease st)).mem (regionBase st.supply)) }) := by
    unfold getFirstFreeBuddy removeFromFreeList
    simp only [hAtL]
    rw [if_pos trivial]
    rfl
  simp only [buddyAllocate, hOwns, Bool.not_true, Bool.false_eq_true, if_false,
    hBs]
  rw [if_neg (show ¬(size > st.buffersize) by omega)]
  by_cases hEq : getLevel (getPowerOfTwo size) = L
  · rw [hEq, hgetL]
    exact ⟨_, rfl⟩
  · have hNone : (buddyReset (buddyRelease st)).heads
        (getLevel (getPowerOfTwo size)) = none := by
      rw [hHeads]
      show (if getLevel (getPowerOfTwo size) = L then _ else none) = none
      rw [if_neg hEq]
    have hget1 : getFirstFreeBuddy (buddyReset (buddyRelease st))
        (getLevel (getPowerOfTwo size)) =
        .ok (none, buddyReset (buddyRelease st)) := by
      unfold getFirstFreeBuddy
      rw [hNone]
    have hfind : findNonEmptyLevel (buddyReset (buddyRelease st)).heads
        (getLevel (getPowerOfTwo size) + 1) = some L := by
      unfold findNonEmptyLevel
      rw [hHeads]
      exact findNonEmptyGo_single (regionBase st.supply) L _ _
        (by omega) (by omega)
    rw [hget1]
    simp only [Bind.bind, Except.bind, hfind, hgetL]
    exact ⟨_, rfl⟩

/-! ## Release/reset behaviour of the three allocators (C8) -/

theorem poolReleasedAllocateFails (st : PoolSt) (size align : Nat) :
    ∃ e, poolAllocate (poolRelease st) size align = .error e := by
  by_cases h : size > st.blockSize
  · refine ⟨.sizeExceedsBlock, ?_⟩
    simp only [poolAllocate]
    rw [if_pos (show size > (poolRelease st).blockSize from h)]
  · refine ⟨.released, ?_⟩
    simp only [poolAllocate]
    rw [if_neg (show ¬(size > (poolRelease st).blockSize) from h)]
    rfl

theorem poolReleasedDeallocateFails (st : PoolSt) (ptr : Nat) :
    ∃ e, poolDeallocate (poolRelease st) ptr = .error e := by
  by_cases h : ptr = 0
  · exact ⟨.nullPointer, by simp only [poolDeallocate]; rw [if_pos h]⟩
  · refine ⟨.released, ?_⟩
    simp only [poolDeallocate]
    rw [if_neg h]
    rfl

theorem popFirstFree_singleton (mem : Mem) (q : Pool) (b : Nat)
    (h : q.freeListHead = some b) :
    popFirstFree mem [q] =
      some (b, [{ q with freeListHead := mem b,
                         allocatedCount := q.allocatedCount + 1,
                         freeCount := q.freeCount - 1 }]) := by
  unfold popFirstFree
  rw [h]

theorem poolResetAllocateOk (st : PoolSt) (size align : Nat)
    (hcount : 1 ≤ st.blockCount) (hsize : size ≤ st.blockSize) :
    ∃ r, (poolReset (poolRelease st)).bind
      (fun s2 => poolAllocate s2 size align) = .ok r := by
  have hreset : poolReset (poolRelease st) =
      .ok (allocateNewPool.allocateNewPoolCore (poolRelease st)) := rfl
  rw [hreset]
  show ∃ r, poolAllocate (allocateNewPool.allocateNewPoolCore (poolRelease st))
    size align = .ok r
  have hhead : (threadLoop st.mem none 0 (regionBase st.supply) st.blockSize
      0 st.blockCount).2.1 =
      some (regionBase st.supply + (0 + st.blockCount - 1) * st.blockSize) :=
    threadLoop_head _ _ _ _ _ _ _ (by omega)
  have hpools : (allocateNewPool.allocateNewPoolCore (poolRelease st)).pools =
      [⟨regionBase st.supply, st.poolSize,
        (threadLoop st.mem none 0 (regionBase st.supply) st.blockSize
          0 st.blockCount).2.1, 0,
        (threadLoop st.mem none 0 (regionBase st.supply) st.blockSize
          0 st.blockCount).2.2⟩] := rfl
  obtain ⟨ps, hpop⟩ : ∃ ps,
      popFirstFree (allocateNewPool.allocateNewPoolCore (poolRelease st)).mem
        (allocateNewPool.allocateNewPoolCore (poolRelease st)).pools =
      some (regionBase st.supply + (0 + st.blockCount - 1) * st.blockSize, ps) :=
    ⟨_, by
      rw [hpools]
      exact popFirstFree_singleton _ _ _ hhead⟩
  simp only [poolAllocate]
  rw [if_neg (show ¬(size >
    (allocateNewPool.allocateNewPoolCore (poolRelease st)).blockSize) from by
      show ¬(size > st.blockSize); omega)]
  simp only [show (allocateNewPool.allocateNewPoolCore
      (poolRelease st)).ownsMemory = true from rfl,
    Bool.not_true, Bool.false_eq_true, if_false]
  rw [hpop]
  exact ⟨_, rfl⟩

theorem stackReleasedAllocateFails (st : StackSt) (size align : Nat) :
    ∃ e, stackAllocate (stackRelease st) size align = .error e :=
  ⟨.released, rfl⟩

theorem stackReleasedDeallocateFails (st : StackSt) (ptr : Nat) :
    ∃ e, stackDeallocate (stackRelease st) ptr = .error e := by
  by_cases h : ptr = 0
  · exact ⟨.nullPointer, by simp only [stackDeallocate]; rw [if_pos h]⟩
  · refine ⟨.released, ?_⟩
    simp only [stackDeallocate]
    rw [if_neg h]
    rfl

theorem stackAllocate_fresh (al n B : Nat) (rs d c : Bool) (s size : Nat)
    (hsz : getAlignedSize size al ≤ n) :
    ∃ r, stackAllocate ⟨al, n, rs, [⟨B, n, 0⟩], [], true, s, d, c⟩ size 0 =
      .ok r := by
  have hfit : stackTryFit ⟨al, n, rs, [⟨B, n, 0⟩], [], true, s, d, c⟩
      (getAlignedSize size al) =
      some (B + 0, ⟨al, n, rs,
        updateLast (fun lb => { lb with offset := lb.offset + getAlignedSize size al })
          [⟨B, n, 0⟩],
        if d = true then [] ++ [(B + 0, getAlignedSize size al)] else [],
        true, s, d, c⟩) := by
    show (if (0 : Nat) + getAlignedSize size al ≤ n then _ else none) = _
    rw [if_pos (show (0 : Nat) + getAlignedSize size al ≤ n by omega)]
    rfl
  simp only [stackAllocate, Bool.not_true, Bool.false_eq_true, if_false,
    if_true]
  rw [if_neg (show ¬(getAlignedSize size al > n) by omega)]
  rw [hfit]
  exact ⟨_, rfl⟩

theorem exceptBindOk {α β : Type} (a : α) (f : α → Except Err β) :
    (Except.ok a : Except Err α).bind f = f a := rfl

theorem stackResetAllocateOk (st : StackSt) (size : Nat)
    (hsz : getAlignedSize size st.alignment ≤ st.bufferSize) :
    ∃ r, (stackReset (stackRelease st)).bind
      (fun s2 => stackAllocate s2 size 0) = .ok r := by
  have hreset : stackReset (stackRelease st) =
      .ok (⟨st.alignment, st.bufferSize, st.resizable,
        [⟨regionBase st.supply, st.bufferSize, 0⟩], [], true, st.supply + 1,
        st.debugChecks, st.capacityChecks⟩ : StackSt) := rfl
  rw [hreset, exceptBindOk]
  exact stackAllocate_fresh st.alignment st.bufferSize (regionBase st.supply)
    st.resizable st.debugChecks st.capacityChecks (st.supply + 1) size hsz

theorem buddyReleasedAllocateFails (st : BuddySt) (size align : Nat) :
    ∃ e, buddyAllocate (buddyRelease st) size align = .error e :=
  ⟨.released, rfl⟩

theorem buddyReleasedDeallocateFails (st : BuddySt) (ptr : Nat) :
    ∃ e, buddyDeallocate (buddyRelease st) ptr = .error e := by
  by_cases h : ptr = 0
  · exact ⟨.nullPointer, by simp only [buddyDeallocate]; rw [if_pos h]⟩
  · refine ⟨.released, ?_⟩
    simp only [buddyDeallocate]
    rw [if_neg h]
    rfl

/-- **C8**: for each of the three allocators, after `release()` every
`allocate`/`deallocate` call fails with an error, and after `release()`
followed by `reset()` a subsequent valid `allocate` succeeds again (pool:
a block-sized request on an allocator with at least one block per pool;
stack: a request whose aligned size fits the buffer; buddy: a request
within a power-of-two buffer size in the constructible range). -/
theorem c8_release_disables_reset_reenables :
    (∀ (st : PoolSt) (size align : Nat),
        ∃ e, poolAllocate (poolRelease st) size align = .error e) ∧
    (∀ (st : PoolSt) (ptr : Nat),
        ∃ e, poolDeallocate (poolRelease st) ptr = .error e) ∧
    (∀ (st : PoolSt) (size align : Nat), 1 ≤ st.blockCount →
        size ≤ st.blockSize →
        ∃ r, (poolReset (poolRelease st)).bind
          (fun s2 => poolAllocate s2 size align) = .ok r) ∧
    (∀ (st : StackSt) (size align : Nat),
        ∃ e, stackAllocate (stackRelease st) size align = .error e) ∧
    (∀ (st : StackSt) (ptr : Nat),
        ∃ e, stackDeallocate (stackRelease st) ptr = .error e) ∧
    (∀ (st : StackSt) (size : Nat),
        getAlignedSize size st.alignment ≤ st.bufferSize →
        ∃ r, (stackReset (stackRelease st)).bind
          (fun s2 => stackAllocate s2 size 0) = .ok r) ∧
    (∀ (st : BuddySt) (size align : Nat),
        ∃ e, buddyAllocate (buddyRelease st) size align = .error e) ∧
    (∀ (st : BuddySt) (ptr : Nat),
        ∃ e, buddyDeallocate (buddyRelease st) ptr = .error e) ∧
    (∀ (st : BuddySt) (size L : Nat), st.buffersize = 2 ^ (10 + L) →
        L ≤ 17 → size ≤ st.buffersize →
        ∃ r, buddyAllocate (buddyReset (buddyRelease st)) size 0 = .ok r) :=
  ⟨poolReleasedAllocateFails, poolReleasedDeallocateFails,
   fun st size align h1 h2 => poolResetAllocateOk st size align h1 h2,
   stackReleasedAllocateFails, stackReleasedDeallocateFails,
   fun st size h => stackResetAllocateOk st size h,
   buddyReleasedAllocateFails, buddyReleasedDeallocateFails,
   fun st size L h1 h2 h3 => buddyResetAllocateOk st size L h1 h2 h3⟩

/-- Closed instantiation of the C8 theorem on the sample pool (32-byte
blocks, 2 per pool), sample stack (64-byte buffer, alignment 8) and
sample buddy (1 MiB buffer). -/
theorem c8_release_disables_reset_reenables_witness :
    (∃ e, poolAllocate (poolRelease samplePool) 16 0 = .error e) ∧
    (∃ e, poolDeallocate (poolRelease samplePool) 4294967296 = .error e) ∧
    (∃ r, (poolReset (poolRelease samplePool)).bind
      (fun s2 => poolAllocate s2 16 0) = .ok r) ∧
    (∃ e, stackAllocate (stackRelease sampleStack) 16 0 = .error e) ∧
    (∃ e, stackDeallocate (stackRelease sampleStack) 4294967296 = .error e) ∧
    (∃ r, (stackReset (stackRelease sampleStack)).bind
      (fun s2 => stackAllocate s2 16 0) = .ok r) ∧
    (∃ e, buddyAllocate (buddyRelease sampleBuddy) 1024 0 = .error e) ∧
    (∃ e, buddyDeallocate (buddyRelease sampleBuddy) 4294967296 = .error e) ∧
    (∃ r, buddyAllocate (buddyReset (buddyRelease sampleBuddy)) 1024 0 =
      .ok r) := by
  obtain ⟨h1, h2, h3, h4, h5, h6, h7, h8, h9⟩ :=
    c8_release_disables_reset_reenables
  exact ⟨h1 samplePool 16 0, h2 samplePool 4294967296,
    h3 samplePool 16 0 (by decide) (by decide),
    h4 sampleStack 16 0, h5 sampleStack 4294967296,
    h6 sampleStack 16 (by decide),
    h7 sampleBuddy 1024 0, h8 sampleBuddy 4294967296,
    h9 sampleBuddy 1024 10 (by decide) (by decide) (by decide)⟩

end CMA
